import Mathlib

/-!
Verification of the Telehash switch core against its specification.

The development shallowly embeds the Go sources: the Kademlia routing
table (`modules/dht/kademlia/table.go`), the packet codec (`pkt.go`) and
the channel controller (`controller_channel.go`, `switch.go`).  Pure Go
functions become Lean functions, Go linked lists become Lean lists, and
machine integers become `Nat`/`Int`.  Definitions are kept executable so
that properties can be checked on concrete inputs.
-/

namespace Telehash

namespace Kademlia

/-- Constants from table.go. -/
def KeyLen : Nat := 32

def numBuckets : Nat := KeyLen * 8

def maxPeers : Nat := 32

def maxCandidates : Nat := 128

def maxRoutersPerCandidate : Nat := 5

def defaultLookupSize : Nat := 32

/-- Hashnames are 32-byte identifiers; the XOR metric and its ordering are
lexicographic on the bytes, which coincides with the numeric order of the
256-bit value, so hashnames and keys are embedded as natural numbers. -/
abbrev H := Nat

/-- Modelled from the spec (§4.2): `distance(a, b)` is the XOR of the two
identifiers.  The file keydist.go defining `distance`, `keyDistance`,
`bucketFromDistance` and `distanceLess` is absent from src/. -/
def distance (a b : H) : Nat := Nat.xor a b

/-- Modelled from the spec (§4.2): XOR distance between a hashname and a
lookup key (keydist.go is absent from src/). -/
def keyDistance (a : H) (key : Nat) : Nat := Nat.xor a key

/-- Fuel-driven base-2 logarithm (index of the most significant set bit),
written structurally so the kernel can evaluate it. -/
def log2fuel : Nat → Nat → Nat
  | 0, _ => 0
  | fuel + 1, n => if n < 2 then 0 else log2fuel fuel (n / 2) + 1

/-- Index of the most significant set bit of a positive number. -/
def msbIndex (n : Nat) : Nat := log2fuel n n

/-- Modelled from the spec (§4.2): `-1` for the all-zero distance, else
255 minus the index of the most significant set bit (keydist.go is absent
from src/). -/
def bucketFromDistance (d : Nat) : Int :=
  if d = 0 then -1 else (255 : Int) - msbIndex d

/-- Modelled from the spec (§4.2): unsigned lexicographic comparison of
the 32-byte distances, i.e. numeric comparison (keydist.go is absent from
src/). -/
def distanceLess (x y : Nat) : Bool := x < y

/-- peerInfo from table.go. -/
structure peerInfo where
  bucket : Int
  dist : Nat
  hashname : H
deriving DecidableEq

/-- activePeer from table.go; the mesh tag is embedded as a number. -/
structure activePeer where
  pinfo : peerInfo
  tag : Nat
deriving DecidableEq

/-- candidatePeer from table.go. -/
structure candidatePeer where
  pinfo : peerInfo
  routers : List H
deriving DecidableEq

/-- bucket from table.go: three ordered sequences. -/
structure bucket where
  id : Nat
  peers : List activePeer
  candidates : List candidatePeer
  pending : List candidatePeer
deriving DecidableEq

/-- table from table.go; the 256-entry bucket array is a function. -/
structure table where
  localHashname : H
  buckets : Nat → bucket

/-- table.init from table.go. -/
def tableInit (localHN : H) : table :=
  { localHashname := localHN
    buckets := fun i => { id := i, peers := [], candidates := [], pending := [] } }

/-- Store a new value for one bucket of the array. -/
def updateBucket (t : table) (i : Nat) (b : bucket) : table :=
  { t with buckets := fun j => if j = i then b else t.buckets j }

/-- Remove the first list entry satisfying the test, like the
remove-and-break loops of table.go. -/
def removeFirst (p : α → Bool) : List α → List α
  | [] => []
  | x :: xs => if p x then xs else x :: removeFirst p xs

/-- Update the first list entry satisfying the test, like the
update-and-return loops of table.go. -/
def updateFirst (p : α → Bool) (f : α → α) : List α → List α
  | [] => []
  | x :: xs => if p x then f x :: xs else x :: updateFirst p f xs

/-- activatePeer from table.go: drop the hashname from pending, then
either refresh the tag of an existing active entry, reject when the
bucket is full, or append a new active entry. -/
def activatePeer (t : table) (hn : H) (tag : Nat) : table :=
  let dist := distance t.localHashname hn
  let bIdx := bucketFromDistance dist
  if bIdx < 0 then t
  else
    let i := bIdx.toNat
    let b0 := t.buckets i
    let b1 := { b0 with pending := removeFirst (fun c => c.pinfo.hashname = hn) b0.pending }
    if b1.peers.any (fun a => a.pinfo.hashname = hn) then
      updateBucket t i
        { b1 with peers :=
            updateFirst (fun a => a.pinfo.hashname = hn) (fun a => { a with tag := tag }) b1.peers }
    else if maxPeers ≤ b1.peers.length then
      updateBucket t i b1
    else
      updateBucket t i
        { b1 with peers := b1.peers ++ [{ pinfo := { bucket := bIdx, dist := dist, hashname := hn }, tag := tag }] }

/-- deactivatePeer from table.go: remove the hashname from all three
lists of its bucket. -/
def deactivatePeer (t : table) (hn : H) : table :=
  let dist := distance t.localHashname hn
  let bIdx := bucketFromDistance dist
  if bIdx < 0 then t
  else
    let i := bIdx.toNat
    let b := t.buckets i
    updateBucket t i
      { b with
        peers := removeFirst (fun a => a.pinfo.hashname = hn) b.peers
        candidates := removeFirst (fun c => c.pinfo.hashname = hn) b.candidates
        pending := removeFirst (fun c => c.pinfo.hashname = hn) b.pending }

/-- The router-merge loop of addCandidate, exactly as the source executes
it: Go's range iterates over the snapshot of the slice taken at loop
entry, so every existing router different from the new one is appended
again, and the new router itself is never appended. -/
def goMergeRouters (rs : List H) (router : H) : List H :=
  let rs2 := rs ++ rs.filter (fun r => r ≠ router)
  if maxRoutersPerCandidate < rs2.length then rs2.take maxRoutersPerCandidate else rs2

/-- Follows the spec's words (§4.3): merge the router into the list,
deduplicated, truncated at 5 entries keeping the earliest. -/
def specMergeRouters (rs : List H) (router : H) : List H :=
  (if router ∈ rs then rs else rs ++ [router]).take maxRoutersPerCandidate

/-- addCandidate from table.go: ignore the local hashname, active peers
and pending peers; merge routers into an existing candidate; else append
a fresh candidate while the bucket has room. -/
def addCandidate (t : table) (hn router : H) : table :=
  let dist := distance t.localHashname hn
  let bIdx := bucketFromDistance dist
  if bIdx < 0 then t
  else
    let i := bIdx.toNat
    let b := t.buckets i
    if b.peers.any (fun a => a.pinfo.hashname = hn) then t
    else if b.pending.any (fun c => c.pinfo.hashname = hn) then t
    else if b.candidates.any (fun c => c.pinfo.hashname = hn) then
      let mergeOne := fun (c : candidatePeer) => { c with routers := goMergeRouters c.routers router }
      updateBucket t i
        { b with candidates := updateFirst (fun c => c.pinfo.hashname = hn) mergeOne b.candidates }
    else if b.candidates.length < maxCandidates then
      updateBucket t i
        { b with candidates := b.candidates ++ [{ pinfo := { bucket := bIdx, dist := dist, hashname := hn }, routers := [router] }] }
    else t

/-- nextCandidate from table.go: scan buckets in index order, skip full
or candidate-less buckets, else move the first candidate to pending. -/
def nextCandidateAux (t : table) : List Nat → Option candidatePeer × table
  | [] => (none, t)
  | i :: rest =>
    let b := t.buckets i
    if b.peers.length + b.pending.length = maxPeers then nextCandidateAux t rest
    else
      match b.candidates with
      | [] => nextCandidateAux t rest
      | c :: cs =>
        (some c, updateBucket t i { b with candidates := cs, pending := b.pending ++ [c] })

/-- nextCandidate from table.go. -/
def nextCandidate (t : table) : Option candidatePeer × table :=
  nextCandidateAux t (List.range numBuckets)

/-- The peerInfo views of a bucket's active peers. -/
def bucketPeerInfos (t : table) (i : Nat) : List peerInfo :=
  (t.buckets i).peers.map (fun a => a.pinfo)

/-- The gathering loop of findKey (table.go lines 92-122): while fewer
than n peers are gathered and the offset is below 256, append the peers
of the buckets at distance offset below and above the start bucket.  The
fuel argument only bounds the iteration count; the loop guard is the
same as the source's. -/
def gatherAux (t : table) (n bucketIdx : Nat) : Nat → Nat → List peerInfo → List peerInfo
  | 0, _, peers => peers
  | fuel + 1, offset, peers =>
    if peers.length < n ∧ offset < numBuckets then
      let p1 := if offset ≤ bucketIdx then peers ++ bucketPeerInfos t (bucketIdx - offset) else peers
      let p2 := if bucketIdx + offset < numBuckets then p1 ++ bucketPeerInfos t (bucketIdx + offset) else p1
      gatherAux t n bucketIdx fuel (offset + 1) p2
    else peers

/-- The peers gathered by findKey before sorting: the start bucket's
active peers, extended by the outward walk. -/
def gatherKey (t : table) (key : Nat) (n : Nat) : List peerInfo :=
  let bIdx0 := bucketFromDistance (keyDistance t.localHashname key)
  let bucketIdx := if bIdx0 < 0 then 0 else bIdx0.toNat
  gatherAux t n bucketIdx numBuckets 1 (bucketPeerInfos t bucketIdx)

/-- Comparison used by findKey's sort: non-decreasing XOR distance.  The
source sorts with the strict comparator `distanceLess` via sort.Sort;
any comparison sort yields a permutation that is sorted under this
reflexive closure, which is how the sort is embedded here. -/
def peerLE (a b : peerInfo) : Prop := a.dist ≤ b.dist

instance : DecidableRel peerLE := fun a b => Nat.decLe a.dist b.dist

instance : IsTotal peerInfo peerLE := ⟨fun a b => Nat.le_total a.dist b.dist⟩

instance : IsTrans peerInfo peerLE := ⟨fun _ _ _ h1 h2 => Nat.le_trans h1 h2⟩

/-- The defaulting of findKey's width argument: 0 means 32. -/
def lookupWidth (n0 : Nat) : Nat := if n0 = 0 then defaultLookupSize else n0

/-- The gathered peers with their distances recomputed against the key
(table.go lines 125-128). -/
def updatedPeers (t : table) (key n : Nat) : List peerInfo :=
  (gatherKey t key n).map (fun pi => { pi with dist := keyDistance pi.hashname key })

/-- The gathered peers sorted by distance to the key (table.go line 131). -/
def sortedPeers (t : table) (key n : Nat) : List peerInfo :=
  List.insertionSort peerLE (updatedPeers t key n)

/-- findKey from table.go: default n to 32, gather active peers walking
outward from the key's bucket, recompute every distance against the key,
sort ascending, trim to n and project the hashnames. -/
def findKey (t : table) (key : Nat) (n0 : Nat) : List H :=
  let n := lookupWidth n0
  let sorted := sortedPeers t key n
  let trimmed := if n < sorted.length then sorted.take n else sorted
  trimmed.map (fun pi => pi.hashname)

/-- Every peer produced by the gathering loop was already gathered or
comes from the active-peer list of some bucket. -/
theorem mem_gatherAux {t : table} {n bucketIdx : Nat} {pi : peerInfo} (hb : bucketIdx < numBuckets) :
    ∀ fuel offset peers, pi ∈ gatherAux t n bucketIdx fuel offset peers →
      pi ∈ peers ∨ ∃ i, i < numBuckets ∧ pi ∈ bucketPeerInfos t i := by
  intro fuel
  induction fuel with
  | zero => intro offset peers h; exact Or.inl h
  | succ fuel ih =>
    intro offset peers h
    rw [gatherAux] at h
    split at h
    · rcases ih (offset + 1) _ h with h2 | h2
      · split at h2
        · rcases List.mem_append.mp h2 with h3 | h3
          · split at h3
            · rcases List.mem_append.mp h3 with h4 | h4
              · exact Or.inl h4
              · exact Or.inr ⟨bucketIdx - offset, Nat.lt_of_le_of_lt (Nat.sub_le _ _) hb, h4⟩
            · exact Or.inl h3
          · rename_i hlt
            exact Or.inr ⟨bucketIdx + offset, hlt, h3⟩
        · split at h2
          · rcases List.mem_append.mp h2 with h4 | h4
            · exact Or.inl h4
            · exact Or.inr ⟨bucketIdx - offset, Nat.lt_of_le_of_lt (Nat.sub_le _ _) hb, h4⟩
          · exact Or.inl h2
      · exact Or.inr h2
    · exact Or.inl h

/-- The bucket index computed from any distance is at most 255. -/
theorem bucketFromDistance_le (d : Nat) : bucketFromDistance d ≤ 255 := by
  unfold bucketFromDistance
  split
  · omega
  · omega

/-- The start bucket used by gatherKey is in range. -/
theorem gatherKey_start_lt (t : table) (key : Nat) :
    (if bucketFromDistance (keyDistance t.localHashname key) < 0 then 0
     else (bucketFromDistance (keyDistance t.localHashname key)).toNat) < numBuckets := by
  have h := bucketFromDistance_le (keyDistance t.localHashname key)
  split
  · decide
  · have : (bucketFromDistance (keyDistance t.localHashname key)).toNat ≤ 255 := by omega
    unfold numBuckets KeyLen
    omega

/-- Every gathered peer is the peerInfo of an active peer of some bucket. -/
theorem mem_gatherKey {t : table} {key n : Nat} {pi : peerInfo}
    (h : pi ∈ gatherKey t key n) :
    ∃ i, i < numBuckets ∧ pi ∈ bucketPeerInfos t i := by
  unfold gatherKey at h
  have hb := gatherKey_start_lt t key
  rcases mem_gatherAux hb numBuckets 1 _ h with h2 | h2
  · exact ⟨_, hb, h2⟩
  · exact h2

/-- Every element surviving the trim step came from the updated gather list. -/
theorem mem_trim_updated {t : table} {key n : Nat} {pi : peerInfo}
    (h : pi ∈ (if n < (sortedPeers t key n).length then (sortedPeers t key n).take n
               else sortedPeers t key n)) :
    pi ∈ updatedPeers t key n := by
  have hs : pi ∈ sortedPeers t key n := by
    split at h
    · exact (List.take_sublist _ _).mem h
    · exact h
  exact (List.perm_insertionSort peerLE (updatedPeers t key n)).mem_iff.mp hs

/-- The updated gather list stores exactly the distance to the key. -/
theorem updatedPeers_dist {t : table} {key n : Nat} {pi : peerInfo}
    (h : pi ∈ updatedPeers t key n) : pi.dist = keyDistance pi.hashname key := by
  unfold updatedPeers at h
  rcases List.mem_map.mp h with ⟨g, _, rfl⟩
  rfl

/-- C2: for every table state and key, findKey returns at most n
hashnames (32 when n is 0), drawn only from active peers, sorted
ascending by XOR distance from the key; and whenever the outward bucket
walk gathers at least n active peers, exactly n are returned and they
are the nearest of the gathered peers. -/
theorem c2_findKey_correct (t : table) (key : Nat) (n0 : Nat) :
    (findKey t key n0).length ≤ lookupWidth n0 ∧
    (∀ h, h ∈ findKey t key n0 →
      ∃ i, i < numBuckets ∧ ∃ a, a ∈ (t.buckets i).peers ∧ a.pinfo.hashname = h) ∧
    List.Sorted (· ≤ ·) ((findKey t key n0).map (fun h => keyDistance h key)) ∧
    (lookupWidth n0 ≤ (gatherKey t key (lookupWidth n0)).length →
      (findKey t key n0).length = lookupWidth n0 ∧
      (∀ g, g ∈ gatherKey t key (lookupWidth n0) → g.hashname ∉ findKey t key n0 →
        ∀ h, h ∈ findKey t key n0 → keyDistance h key ≤ keyDistance g.hashname key)) := by
  have hfk : findKey t key n0 =
      (if lookupWidth n0 < (sortedPeers t key (lookupWidth n0)).length then
        (sortedPeers t key (lookupWidth n0)).take (lookupWidth n0)
       else sortedPeers t key (lookupWidth n0)).map (fun pi => pi.hashname) := rfl
  have hperm := List.perm_insertionSort peerLE (updatedPeers t key (lookupWidth n0))
  have hsort : List.Sorted peerLE (sortedPeers t key (lookupWidth n0)) :=
    List.sorted_insertionSort peerLE (updatedPeers t key (lookupWidth n0))
  refine ⟨?_, ?_, ?_, ?_⟩
  · rw [hfk, List.length_map]
    split
    · rw [List.length_take]; exact Nat.min_le_left _ _
    · omega
  · intro h hmem
    rw [hfk] at hmem
    rcases List.mem_map.mp hmem with ⟨pi, hpi, rfl⟩
    have hu := mem_trim_updated hpi
    unfold updatedPeers at hu
    rcases List.mem_map.mp hu with ⟨g, hg, rfl⟩
    rcases mem_gatherKey hg with ⟨i, hi, hgi⟩
    rcases List.mem_map.mp hgi with ⟨a, ha, rfl⟩
    exact ⟨i, hi, a, ha, rfl⟩
  · rw [hfk, List.map_map]
    have hcong :
        (if lookupWidth n0 < (sortedPeers t key (lookupWidth n0)).length then
          (sortedPeers t key (lookupWidth n0)).take (lookupWidth n0)
         else sortedPeers t key (lookupWidth n0)).map ((fun h => keyDistance h key) ∘ (fun pi => pi.hashname)) =
        (if lookupWidth n0 < (sortedPeers t key (lookupWidth n0)).length then
          (sortedPeers t key (lookupWidth n0)).take (lookupWidth n0)
         else sortedPeers t key (lookupWidth n0)).map (fun pi => pi.dist) := by
      refine List.map_congr_left ?_
      intro pi hpi
      exact (updatedPeers_dist (mem_trim_updated hpi)).symm
    rw [hcong]
    have htr : List.Sorted peerLE
        (if lookupWidth n0 < (sortedPeers t key (lookupWidth n0)).length then
          (sortedPeers t key (lookupWidth n0)).take (lookupWidth n0)
         else sortedPeers t key (lookupWidth n0)) := by
      split
      · exact List.Pairwise.sublist (List.take_sublist _ _) hsort
      · exact hsort
    exact List.Pairwise.map _ (fun a b hab => hab) htr
  · intro hlen
    have hslen : (sortedPeers t key (lookupWidth n0)).length =
        (gatherKey t key (lookupWidth n0)).length := by
      have h1 := hperm.length_eq
      unfold updatedPeers at h1
      rw [List.length_map] at h1
      exact h1
    constructor
    · rw [hfk, List.length_map]
      split
      · rw [List.length_take]; omega
      · omega
    · intro g hg hgout h hmem
      have hg' : ({ g with dist := keyDistance g.hashname key } : peerInfo) ∈
          updatedPeers t key (lookupWidth n0) :=
        List.mem_map.mpr ⟨g, hg, rfl⟩
      have hgs : ({ g with dist := keyDistance g.hashname key } : peerInfo) ∈
          sortedPeers t key (lookupWidth n0) := hperm.mem_iff.mpr hg'
      rw [hfk] at hmem hgout
      by_cases hcase : lookupWidth n0 < (sortedPeers t key (lookupWidth n0)).length
      · rw [if_pos hcase] at hmem hgout
        rcases List.mem_map.mp hmem with ⟨a, ha, rfl⟩
        have hgdrop : ({ g with dist := keyDistance g.hashname key } : peerInfo) ∈
            (sortedPeers t key (lookupWidth n0)).drop (lookupWidth n0) := by
          have := (List.take_append_drop (lookupWidth n0) (sortedPeers t key (lookupWidth n0))).symm
          rw [this] at hgs
          rcases List.mem_append.mp hgs with htk | hdr
          · exact absurd (List.mem_map.mpr ⟨_, htk, rfl⟩) hgout
          · exact hdr
        have hpw := hsort
        rw [← List.take_append_drop (lookupWidth n0) (sortedPeers t key (lookupWidth n0))] at hpw
        have hrel := (List.pairwise_append.mp hpw).2.2 a ha _ hgdrop
        have hda := updatedPeers_dist (mem_trim_updated (by rw [if_pos hcase]; exact ha))
        simpa [peerLE, hda] using hrel
      · rw [if_neg hcase] at hmem hgout
        exact absurd (List.mem_map.mpr ⟨_, hgs, rfl⟩) hgout

/-- C1: the per-bucket exclusivity invariant fails on the code.  From an
empty table (local hashname 0), addCandidate(1, 2) followed directly by
activatePeer(1, tag) leaves hashname 1 in both the peers and the
candidates list of bucket 255, because activatePeer removes the hashname
from pending but never from candidates. -/
theorem c1_exclusivity_violated :
    1 ∈ (((activatePeer (addCandidate (tableInit 0) 1 2) 1 9).buckets 255).peers.map
          (fun a => a.pinfo.hashname)) ∧
    1 ∈ (((activatePeer (addCandidate (tableInit 0) 1 2) 1 9).buckets 255).candidates.map
          (fun c => c.pinfo.hashname)) := by decide

/-- C3: the router-merge loop of addCandidate diverges from the specified
merge.  A candidate for hashname 1 with router list [5], offered the new
router 7, ends with router list [5, 5]; the specified merge (append when
absent, deduplicate, truncate at 5) yields [5, 7]. -/
theorem c3_router_merge_bug :
    (((addCandidate (addCandidate (tableInit 0) 1 5) 1 7).buckets 255).candidates.map
        (fun c => c.routers)) = [[5, 5]] ∧
    specMergeRouters [5] 7 = [5, 7] ∧
    goMergeRouters [5] 7 ≠ specMergeRouters [5] 7 := by decide

/-- A concrete three-peer table exercising findKey. -/
def c2tab : table := activatePeer (activatePeer (activatePeer (tableInit 0) 1 0) 2 0) 3 0

set_option maxRecDepth 40000 in
/-- Witness for c2_findKey_correct: at a table holding peers 1, 2 and 3,
looking up key 3 with width 1 returns at most one hashname, and the
returned hashname 3 is at least as close to the key as the gathered but
dropped peer 2. -/
theorem c2_findKey_correct_witness :
    (findKey c2tab 3 1).length ≤ lookupWidth 1 ∧
    keyDistance 3 3 ≤ keyDistance 2 3 := by
  constructor
  · exact (c2_findKey_correct c2tab 3 1).1
  · exact ((c2_findKey_correct c2tab 3 1).2.2.2 (by decide)).2
      ⟨254, 2, 2⟩ (by decide) (by decide) 3 (by decide)

end Kademlia

/-! ## Packet codec (pkt.go)

Byte sequences are lists of naturals.  The header is serialised by Go's
encoding/json; that library is embedded here as an executable canonical
JSON codec: the serialiser reproduces Go's compact output for the header
struct (omitempty fields, HTML-escaped strings, a trailing newline from
json.Encoder.Encode), and the parser accepts the canonical grammar the
serialiser emits, which is the only form the switch ever has to decode
since both ends of the wire use this codec. -/

/-- ASCII of a string literal, used for JSON keys and sample texts. -/
def s2b (s : String) : List Nat := s.data.map Char.toNat

/-- Lowercase hex digit, as Go's encoder emits in escape sequences. -/
def hexDig (n : Nat) : Nat := if n < 10 then 48 + n else 87 + n

/-- Go encoding/json string escaping with the default HTML escaping:
quote, backslash, newline, carriage return and tab get two-byte escapes,
other control bytes and the HTML bytes angle brackets and ampersand get
six-byte unicode escapes, everything else is emitted verbatim. -/
def escByte (c : Nat) : List Nat :=
  if c = 34 then [92, 34]
  else if c = 92 then [92, 92]
  else if c = 10 then [92, 110]
  else if c = 13 then [92, 114]
  else if c = 9 then [92, 116]
  else if c < 32 ∨ c = 60 ∨ c = 62 ∨ c = 38 then [92, 117, 48, 48, hexDig (c / 16), hexDig (c % 16)]
  else [c]

/-- Escaped body of a JSON string literal. -/
def encStrBody (s : List Nat) : List Nat := s.flatMap escByte

/-- A JSON string literal with its delimiting quotes. -/
def encStr (s : List Nat) : List Nat := 34 :: encStrBody s ++ [34]

/-- Decimal digits of n, most significant first; fuel-driven so the
kernel can evaluate it. -/
def encNatAux : Nat → Nat → List Nat
  | 0, _ => []
  | fuel + 1, n => if n = 0 then [] else encNatAux fuel (n / 10) ++ [48 + n % 10]

/-- Decimal representation of a natural number. -/
def encNat (n : Nat) : List Nat := if n = 0 then [48] else encNatAux (n + 1) n

/-- Decimal representation of an integer, as Go emits JSON numbers for
integer fields. -/
def encInt (i : Int) : List Nat := if i < 0 then 45 :: encNat (-i).toNat else encNat i.toNat

/-- ASCII decimal digit test. -/
def isDigit (c : Nat) : Bool := 48 ≤ c && c ≤ 57

/-- Longest digit run at the head of the input. -/
def takeDigits : List Nat → (List Nat × List Nat)
  | [] => ([], [])
  | c :: rest =>
    if isDigit c then
      let (ds, r) := takeDigits rest
      (c :: ds, r)
    else ([], c :: rest)

/-- Value of a digit run. -/
def digitsVal (ds : List Nat) : Nat := ds.foldl (fun acc c => acc * 10 + (c - 48)) 0

/-- Parse an optionally signed decimal integer. -/
def parseIntBytes (bs : List Nat) : Option (Int × List Nat) :=
  match bs with
  | [] => none
  | c :: rest =>
    if c = 45 then
      let dr := takeDigits rest
      if dr.1 = [] then none else some (-(digitsVal dr.1 : Int), dr.2)
    else
      let dr := takeDigits (c :: rest)
      if dr.1 = [] then none else some ((digitsVal dr.1 : Nat), dr.2)

/-- Value of a hex digit byte. -/
def hexVal (c : Nat) : Option Nat :=
  if 48 ≤ c ∧ c ≤ 57 then some (c - 48)
  else if 97 ≤ c ∧ c ≤ 102 then some (c - 87)
  else if 65 ≤ c ∧ c ≤ 70 then some (c - 55)
  else none

/-- Parse the body of a JSON string literal up to and including the
closing quote, undoing the escapes of `escByte`. -/
def parseStrBody : Nat → List Nat → Option (List Nat × List Nat)
  | 0, _ => none
  | _ + 1, [] => none
  | fuel + 1, c :: rest =>
    if c = 34 then some ([], rest)
    else if c = 92 then
      match rest with
      | [] => none
      | e :: rest2 =>
        if e = 34 ∨ e = 92 ∨ e = 47 then
          (parseStrBody fuel rest2).map (fun sr => (e :: sr.1, sr.2))
        else if e = 110 then (parseStrBody fuel rest2).map (fun sr => (10 :: sr.1, sr.2))
        else if e = 114 then (parseStrBody fuel rest2).map (fun sr => (13 :: sr.1, sr.2))
        else if e = 116 then (parseStrBody fuel rest2).map (fun sr => (9 :: sr.1, sr.2))
        else if e = 98 then (parseStrBody fuel rest2).map (fun sr => (8 :: sr.1, sr.2))
        else if e = 102 then (parseStrBody fuel rest2).map (fun sr => (12 :: sr.1, sr.2))
        else if e = 117 then
          match rest2 with
          | h1 :: h2 :: h3 :: h4 :: rest3 =>
            match hexVal h1, hexVal h2, hexVal h3, hexVal h4 with
            | some a, some b, some cc, some d =>
              (parseStrBody fuel rest3).map (fun sr => ((((a * 16 + b) * 16 + cc) * 16 + d) :: sr.1, sr.2))
            | _, _, _, _ => none
          | _ => none
        else none
    else (parseStrBody fuel rest).map (fun sr => (c :: sr.1, sr.2))

mutual
/-- JSON values, embedding Go's json.RawMessage payloads as structured
values (numbers restricted to integers, which is all the switch emits). -/
inductive Json where
  | null
  | jbool (b : Bool)
  | num (n : Int)
  | str (s : List Nat)
  | arr (elems : JsonArr)
  | obj (members : JsonObj)
deriving DecidableEq

inductive JsonArr where
  | nil
  | cons (hd : Json) (tl : JsonArr)
deriving DecidableEq

inductive JsonObj where
  | nil
  | cons (key : List Nat) (val : Json) (tl : JsonObj)
deriving DecidableEq
end

mutual
/-- Canonical (compact) serialisation of a JSON value, matching Go's
encoder output for the values the switch produces. -/
def serJson : Json → List Nat
  | .null => [110, 117, 108, 108]
  | .jbool true => [116, 114, 117, 101]
  | .jbool false => [102, 97, 108, 115, 101]
  | .num i => encInt i
  | .str s => encStr s
  | .arr es => 91 :: serArr es true ++ [93]
  | .obj ms => 123 :: serObj ms true ++ [125]

/-- Serialise array elements, comma separated. -/
def serArr : JsonArr → Bool → List Nat
  | .nil, _ => []
  | .cons v tl, first => (if first then [] else [44]) ++ serJson v ++ serArr tl false

/-- Serialise object members, comma separated. -/
def serObj : JsonObj → Bool → List Nat
  | .nil, _ => []
  | .cons k v tl, first =>
    (if first then [] else [44]) ++ encStr k ++ 58 :: serJson v ++ serObj tl false
end

mutual
/-- Fuel bound for parsing a serialised value. -/
def jsize : Json → Nat
  | .null => 1
  | .jbool _ => 1
  | .num _ => 1
  | .str _ => 1
  | .arr es => asize es + 1
  | .obj ms => osize ms + 1

def asize : JsonArr → Nat
  | .nil => 1
  | .cons v tl => jsize v + asize tl + 1

def osize : JsonObj → Nat
  | .nil => 1
  | .cons _ v tl => jsize v + osize tl + 1
end

mutual
/-- Recursive-descent parser for the canonical JSON grammar emitted by
`serJson`; the fuel only bounds recursion depth. -/
def parseVal : Nat → List Nat → Option (Json × List Nat)
  | 0, _ => none
  | _ + 1, [] => none
  | fuel + 1, c :: rest =>
    if c = 110 then
      match rest with
      | 117 :: 108 :: 108 :: r => some (.null, r)
      | _ => none
    else if c = 116 then
      match rest with
      | 114 :: 117 :: 101 :: r => some (.jbool true, r)
      | _ => none
    else if c = 102 then
      match rest with
      | 97 :: 108 :: 115 :: 101 :: r => some (.jbool false, r)
      | _ => none
    else if c = 34 then
      (parseStrBody rest.length rest).map (fun sr => (.str sr.1, sr.2))
    else if c = 91 then
      if rest.headD 0 = 93 then some (.arr .nil, rest.tail)
      else (parseArrItems fuel rest).map (fun er => (.arr er.1, er.2))
    else if c = 123 then
      if rest.headD 0 = 125 then some (.obj .nil, rest.tail)
      else (parseObjItems fuel rest).map (fun mr => (.obj mr.1, mr.2))
    else if c = 45 || isDigit c then
      (parseIntBytes (c :: rest)).map (fun ir => (.num ir.1, ir.2))
    else none

/-- Parse the items of a non-empty array after the opening bracket. -/
def parseArrItems : Nat → List Nat → Option (JsonArr × List Nat)
  | 0, _ => none
  | fuel + 1, bs =>
    match parseVal fuel bs with
    | none => none
    | some (v, r) =>
      match r with
      | 44 :: r2 =>
        match parseArrItems fuel r2 with
        | none => none
        | some (tl, r3) => some (.cons v tl, r3)
      | 93 :: r2 => some (.cons v .nil, r2)
      | _ => none

/-- Parse the members of a non-empty object after the opening brace. -/
def parseObjItems : Nat → List Nat → Option (JsonObj × List Nat)
  | 0, _ => none
  | fuel + 1, bs =>
    match bs with
    | 34 :: rest =>
      match parseStrBody rest.length rest with
      | none => none
      | some (k, r) =>
        match r with
        | 58 :: r2 =>
          match parseVal fuel r2 with
          | none => none
          | some (v, r3) =>
            match r3 with
            | 44 :: r4 =>
              match parseObjItems fuel r4 with
              | none => none
              | some (tl, r5) => some (.cons k v tl, r5)
            | 125 :: r4 => some (.cons k v .nil, r4)
            | _ => none
        | _ => none
    | _ => none
end

/-- The input does not continue with a digit, so a maximal-munch number
parse stops exactly at its end. -/
def numStop : List Nat → Prop
  | [] => True
  | c :: _ => isDigit c = false

theorem encNatAux_digits : ∀ fuel n c, c ∈ encNatAux fuel n → isDigit c = true := by
  intro fuel
  induction fuel with
  | zero => intro n c h; simp [encNatAux] at h
  | succ fuel ih =>
    intro n c h
    rw [encNatAux] at h
    split at h
    · simp at h
    · rcases List.mem_append.mp h with h2 | h2
      · exact ih _ _ h2
      · have : c = 48 + n % 10 := by simpa using h2
        have hm : n % 10 < 10 := Nat.mod_lt _ (by omega)
        simp [this, isDigit]
        omega

theorem encNat_digits {n c : Nat} (h : c ∈ encNat n) : isDigit c = true := by
  unfold encNat at h
  split at h
  · simp at h; simp [h, isDigit]
  · exact encNatAux_digits _ _ _ h

theorem takeDigits_append {ds rest : List Nat} (hds : ∀ c ∈ ds, isDigit c = true)
    (hrest : numStop rest) : takeDigits (ds ++ rest) = (ds, rest) := by
  induction ds with
  | nil =>
    simp only [List.nil_append]
    cases rest with
    | nil => rfl
    | cons c r =>
      unfold numStop at hrest
      simp [takeDigits, hrest]
  | cons c ds ih =>
    have hc := hds c (by simp)
    simp [takeDigits, hc, ih (fun x hx => hds x (by simp [hx]))]

theorem digitsVal_append_digit (l : List Nat) (d : Nat) :
    digitsVal (l ++ [d]) = digitsVal l * 10 + (d - 48) := by
  simp [digitsVal]

theorem digitsVal_encNatAux : ∀ fuel n, n < fuel → digitsVal (encNatAux fuel n) = n := by
  intro fuel
  induction fuel with
  | zero => omega
  | succ fuel ih =>
    intro n hn
    rw [encNatAux]
    split
    · simp [digitsVal]; omega
    · rename_i hne
      rw [digitsVal_append_digit, ih (n / 10) (by omega)]
      omega

theorem digitsVal_encNat (n : Nat) : digitsVal (encNat n) = n := by
  unfold encNat
  split
  · simp [digitsVal]; omega
  · exact digitsVal_encNatAux _ _ (by omega)

theorem encNat_ne_nil (n : Nat) : encNat n ≠ [] := by
  unfold encNat
  split
  · simp
  · rw [encNatAux]
    split
    · omega
    · simp

theorem encNat_head (n : Nat) : ∃ d ds, encNat n = d :: ds ∧ isDigit d = true := by
  rcases he : encNat n with _ | ⟨d, ds⟩
  · exact absurd he (encNat_ne_nil n)
  · exact ⟨d, ds, rfl, encNat_digits (by rw [he]; exact List.mem_cons_self d ds)⟩

theorem parseIntBytes_encInt (i : Int) (rest : List Nat) (hrest : numStop rest) :
    parseIntBytes (encInt i ++ rest) = some (i, rest) := by
  unfold encInt
  split
  · rename_i hneg
    have hd : takeDigits (encNat (-i).toNat ++ rest) = (encNat (-i).toNat, rest) :=
      takeDigits_append (fun c hc => encNat_digits hc) hrest
    simp [parseIntBytes, hd, encNat_ne_nil, digitsVal_encNat]
    omega
  · rename_i hpos
    rcases encNat_head i.toNat with ⟨d, ds, he, hdig⟩
    rw [he]
    have h45 : ¬(d = 45) := by
      unfold isDigit at hdig
      simp at hdig
      omega
    have hd : takeDigits ((d :: ds) ++ rest) = (d :: ds, rest) := by
      rw [← he]
      exact takeDigits_append (fun c hc => encNat_digits hc) hrest
    simp only [List.cons_append, parseIntBytes, if_neg h45]
    rw [show d :: (ds ++ rest) = (d :: ds) ++ rest from rfl, hd]
    simp [← he, encNat_ne_nil, digitsVal_encNat]
    omega

theorem hexVal_hexDig {x : Nat} (hx : x < 16) : hexVal (hexDig x) = some x := by
  unfold hexVal hexDig
  split
  · rename_i h10
    rw [if_pos (by omega)]
    simp
  · rename_i h10
    rw [if_neg (by omega), if_pos (by omega)]
    simp

theorem parseStrBody_enc :
    ∀ (s : List Nat) (fuel : Nat) (rest : List Nat), (encStrBody s).length < fuel →
      parseStrBody fuel (encStrBody s ++ 34 :: rest) = some (s, rest) := by
  intro s
  induction s with
  | nil =>
    intro fuel rest hfuel
    cases fuel with
    | zero => omega
    | succ fuel => simp [encStrBody, parseStrBody]
  | cons c s ih =>
    intro fuel rest hfuel
    have hbody : encStrBody (c :: s) = escByte c ++ encStrBody s := by
      simp [encStrBody]
    rw [hbody] at hfuel ⊢
    have hlen : 1 ≤ (escByte c).length := by
      unfold escByte
      split <;> try simp
      split <;> try simp
      split <;> try simp
      split <;> try simp
      split <;> try simp
      split <;> simp
    unfold escByte at hfuel ⊢
    by_cases h34 : c = 34
    · subst h34
      simp only [if_pos rfl] at hfuel ⊢
      cases fuel with
      | zero => simp at hfuel
      | succ fuel =>
        have := ih fuel rest (by simp at hfuel; omega)
        simp [parseStrBody, this]
    · rw [if_neg h34] at hfuel ⊢
      by_cases h92 : c = 92
      · subst h92
        simp only [if_pos rfl] at hfuel ⊢
        cases fuel with
        | zero => simp at hfuel
        | succ fuel =>
          have := ih fuel rest (by simp at hfuel; omega)
          simp [parseStrBody, this]
      · rw [if_neg h92] at hfuel ⊢
        by_cases h10 : c = 10
        · subst h10
          simp only [if_pos rfl] at hfuel ⊢
          cases fuel with
          | zero => simp at hfuel
          | succ fuel =>
            have := ih fuel rest (by simp at hfuel; omega)
            simp [parseStrBody, this]
        · rw [if_neg h10] at hfuel ⊢
          by_cases h13 : c = 13
          · subst h13
            simp only [if_pos rfl] at hfuel ⊢
            cases fuel with
            | zero => simp at hfuel
            | succ fuel =>
              have := ih fuel rest (by simp at hfuel; omega)
              simp [parseStrBody, this]
          · rw [if_neg h13] at hfuel ⊢
            by_cases h9 : c = 9
            · subst h9
              simp only [if_pos rfl] at hfuel ⊢
              cases fuel with
              | zero => simp at hfuel
              | succ fuel =>
                have := ih fuel rest (by simp at hfuel; omega)
                simp [parseStrBody, this]
            · rw [if_neg h9] at hfuel ⊢
              by_cases hu : c < 32 ∨ c = 60 ∨ c = 62 ∨ c = 38
              · rw [if_pos hu] at hfuel ⊢
                cases fuel with
                | zero => simp at hfuel
                | succ fuel =>
                  have hrec := ih fuel rest (by simp at hfuel; omega)
                  have hdivlt : c / 16 < 16 := by omega
                  have hmodlt : c % 16 < 16 := by omega
                  have hval : ((0 * 16 + 0) * 16 + c / 16) * 16 + c % 16 = c := by omega
                  simp only [List.cons_append, List.append_assoc, parseStrBody]
                  norm_num
                  rw [show hexVal 48 = some 0 from rfl, hexVal_hexDig hdivlt, hexVal_hexDig hmodlt]
                  simp [hrec]
                  omega
              · rw [if_neg hu] at hfuel ⊢
                cases fuel with
                | zero => simp at hfuel
                | succ fuel =>
                  have hrec := ih fuel rest (by simp at hfuel; omega)
                  simp only [List.cons_append, List.nil_append, parseStrBody, if_neg h34, if_neg h92]
                  simp [hrec]

theorem encInt_len (i : Int) : 1 ≤ (encInt i).length := by
  unfold encInt
  split
  · simp
  · rcases encNat_head i.toNat with ⟨d, ds, he, _⟩
    simp [he]

/-- Every serialised value starts with a value-start byte; in particular
never with a separator or closer. -/
theorem serJson_head (v : Json) :
    ∃ c cs, serJson v = c :: cs ∧
      (c = 110 ∨ c = 116 ∨ c = 102 ∨ c = 34 ∨ c = 91 ∨ c = 123 ∨ c = 45 ∨ isDigit c = true) := by
  cases v with
  | null => exact ⟨110, _, rfl, by simp⟩
  | jbool b =>
    cases b
    · exact ⟨102, _, rfl, by simp⟩
    · exact ⟨116, _, rfl, by simp⟩
  | num i =>
    show ∃ c cs, encInt i = c :: cs ∧ _
    unfold encInt
    split
    · exact ⟨45, _, rfl, by simp⟩
    · rcases encNat_head i.toNat with ⟨d, ds, he, hd⟩
      exact ⟨d, ds, he, by simp [hd]⟩
  | str s => exact ⟨34, _, rfl, by simp⟩
  | arr es => exact ⟨91, _, rfl, by simp⟩
  | obj ms => exact ⟨123, _, rfl, by simp⟩

theorem serArr_false_len (es : JsonArr) :
    (serArr es true).length ≤ (serArr es false).length := by
  cases es with
  | nil => simp [serArr]
  | cons v tl => simp [serArr]

theorem serObj_false_len (ms : JsonObj) :
    (serObj ms true).length ≤ (serObj ms false).length := by
  cases ms with
  | nil => simp [serObj]
  | cons k v tl => simp [serObj]

mutual
theorem serJson_fuel : (v : Json) → jsize v + 1 ≤ 2 * (serJson v).length
  | .null => by simp [jsize, serJson]
  | .jbool b => by cases b <;> simp [jsize, serJson]
  | .num i => by
    have h := encInt_len i
    simp only [jsize, serJson]
    omega
  | .str s => by
    simp only [jsize, serJson, encStr]
    simp
  | .arr es => by
    have h := serArr_fuel es
    have h2 := serArr_false_len es
    simp only [jsize, serJson]
    simp only [List.length_cons, List.length_append]
    omega
  | .obj ms => by
    have h := serObj_fuel ms
    have h2 := serObj_false_len ms
    simp only [jsize, serJson]
    simp only [List.length_cons, List.length_append]
    omega

theorem serArr_fuel : (es : JsonArr) → asize es ≤ 2 * (serArr es true).length + 1
  | .nil => by simp [asize, serArr]
  | .cons v tl => by
    have h1 := serJson_fuel v
    have h2 := serArr_fuel tl
    have h3 := serArr_false_len tl
    simp only [asize, serArr]
    simp only [List.length_append, if_pos, List.length_nil]
    simp
    omega

theorem serObj_fuel : (ms : JsonObj) → osize ms ≤ 2 * (serObj ms true).length + 1
  | .nil => by simp [osize, serObj]
  | .cons k v tl => by
    have h1 := serJson_fuel v
    have h2 := serObj_fuel tl
    have h3 := serObj_false_len tl
    have h4 : 2 ≤ (encStr k).length := by simp [encStr]
    simp only [osize, serObj]
    simp only [List.length_append, if_pos, List.length_nil, List.length_cons]
    simp
    omega
end

theorem jsize_pos (v : Json) : 1 ≤ jsize v := by
  cases v <;> simp [jsize]

theorem asize_pos (es : JsonArr) : 1 ≤ asize es := by
  cases es <;> simp [asize]

theorem osize_pos (ms : JsonObj) : 1 ≤ osize ms := by
  cases ms <;> simp [osize]

theorem isDigit_le {c : Nat} (h : isDigit c = true) : 48 ≤ c ∧ c ≤ 57 := by
  simpa [isDigit] using h

theorem encInt_head (i : Int) :
    ∃ c cs, encInt i = c :: cs ∧ (c = 45 ∨ isDigit c = true) := by
  unfold encInt
  split
  · exact ⟨45, _, rfl, Or.inl rfl⟩
  · rcases encNat_head i.toNat with ⟨d, ds, he, hd⟩
    exact ⟨d, ds, he, Or.inr hd⟩
theorem parseVal_34 (fuel : Nat) (bs : List Nat) :
    parseVal (fuel + 1) (34 :: bs) =
      (parseStrBody bs.length bs).map (fun sr => (Json.str sr.1, sr.2)) := rfl

theorem parseVal_91 (fuel : Nat) (bs : List Nat) :
    parseVal (fuel + 1) (91 :: bs) =
      (if bs.headD 0 = 93 then some (Json.arr .nil, bs.tail)
       else (parseArrItems fuel bs).map (fun er => (Json.arr er.1, er.2))) := rfl

theorem parseVal_123 (fuel : Nat) (bs : List Nat) :
    parseVal (fuel + 1) (123 :: bs) =
      (if bs.headD 0 = 125 then some (Json.obj .nil, bs.tail)
       else (parseObjItems fuel bs).map (fun mr => (Json.obj mr.1, mr.2))) := rfl

/-- Parsing inverts serialisation: a serialised value followed by any
non-digit continuation parses back to exactly that value. -/
theorem parse_ser (fuel : Nat) :
    (∀ v rest, jsize v < fuel → numStop rest →
      parseVal fuel (serJson v ++ rest) = some (v, rest)) ∧
    (∀ v tl rest, asize (JsonArr.cons v tl) < fuel →
      parseArrItems fuel (serJson v ++ (serArr tl false ++ 93 :: rest)) = some (.cons v tl, rest)) ∧
    (∀ k v tl rest, osize (JsonObj.cons k v tl) < fuel →
      parseObjItems fuel (encStr k ++ 58 :: (serJson v ++ (serObj tl false ++ 125 :: rest)))
        = some (.cons k v tl, rest)) := by
  induction fuel with
  | zero =>
    exact ⟨fun v rest h _ => by omega, fun v tl rest h => by omega,
      fun k v tl rest h => by omega⟩
  | succ fuel ih =>
    refine ⟨?_, ?_, ?_⟩
    · intro v rest hsz hrest
      cases v with
      | null => simp [serJson, parseVal]
      | jbool b => cases b <;> simp [serJson, parseVal]
      | num i =>
        rcases encInt_head i with ⟨c, cs, he, hc⟩
        have hb : 45 ≤ c ∧ c ≤ 57 := by
          rcases hc with rfl | hd
          · omega
          · have := isDigit_le hd; omega
        have hpi := parseIntBytes_encInt i rest hrest
        show parseVal (fuel + 1) (encInt i ++ rest) = some (.num i, rest)
        rw [he] at hpi ⊢
        simp only [List.cons_append, parseVal]
        rw [if_neg (show ¬(c = 110) by omega), if_neg (show ¬(c = 116) by omega),
          if_neg (show ¬(c = 102) by omega), if_neg (show ¬(c = 34) by omega),
          if_neg (show ¬(c = 91) by omega), if_neg (show ¬(c = 123) by omega),
          if_pos (show (c = 45 || isDigit c) = true by
            rcases hc with rfl | hd
            · simp
            · simp [hd])]
        simp only [List.cons_append] at hpi
        rw [hpi]
        rfl
      | str s =>
        show parseVal (fuel + 1) (34 :: ((encStrBody s ++ [34]) ++ rest)) = some (.str s, rest)
        rw [parseVal_34,
          show (encStrBody s ++ [34]) ++ rest = encStrBody s ++ 34 :: rest by simp,
          parseStrBody_enc s (encStrBody s ++ 34 :: rest).length rest (by simp)]
        rfl
      | arr es =>
        cases es with
        | nil => simp [serJson, serArr, parseVal]
        | cons v tl =>
          rcases serJson_head v with ⟨c, cs, he, hc⟩
          have hne : ¬(c = 93) := by
            rcases hc with rfl | rfl | rfl | rfl | rfl | rfl | rfl | hd
            · omega
            · omega
            · omega
            · omega
            · omega
            · omega
            · omega
            · have := isDigit_le hd; omega
          have hrec := ih.2.1 v tl rest (by
            have h2 : jsize (Json.arr (JsonArr.cons v tl)) = asize (JsonArr.cons v tl) + 1 := rfl
            omega)
          show parseVal (fuel + 1) (91 :: ((serArr (JsonArr.cons v tl) true ++ [93]) ++ rest))
            = some (.arr (.cons v tl), rest)
          rw [parseVal_91,
            show (serArr (JsonArr.cons v tl) true ++ [93]) ++ rest =
              serJson v ++ (serArr tl false ++ 93 :: rest) by simp [serArr, List.append_assoc]]
          rw [he]
          simp only [List.cons_append, List.headD_cons, List.tail_cons]
          rw [if_neg hne]
          rw [show c :: (cs ++ (serArr tl false ++ 93 :: rest)) =
            serJson v ++ (serArr tl false ++ 93 :: rest) by rw [he]; simp]
          rw [hrec]
          rfl
      | obj ms =>
        cases ms with
        | nil => simp [serJson, serObj, parseVal]
        | cons k v tl =>
          have hrec := ih.2.2 k v tl rest (by
            have h2 : jsize (Json.obj (JsonObj.cons k v tl)) = osize (JsonObj.cons k v tl) + 1 := rfl
            omega)
          show parseVal (fuel + 1) (123 :: ((serObj (JsonObj.cons k v tl) true ++ [125]) ++ rest))
            = some (.obj (.cons k v tl), rest)
          rw [parseVal_123,
            show (serObj (JsonObj.cons k v tl) true ++ [125]) ++ rest =
              34 :: (encStrBody k ++ 34 :: (58 :: (serJson v ++ (serObj tl false ++ 125 :: rest)))) by
                simp [serObj, encStr, List.append_assoc]]
          simp only [List.headD_cons, List.tail_cons]
          rw [if_neg (by omega)]
          rw [show (34 : Nat) :: (encStrBody k ++ 34 :: (58 :: (serJson v ++ (serObj tl false ++ 125 :: rest)))) =
            encStr k ++ 58 :: (serJson v ++ (serObj tl false ++ 125 :: rest)) by
              simp [encStr, List.append_assoc], hrec]
          rfl
    · intro v tl rest hsz
      have heq : asize (JsonArr.cons v tl) = jsize v + asize tl + 1 := rfl
      have hszv : jsize v < fuel := by
        have := asize_pos tl
        omega
      have hstop : numStop (serArr tl false ++ 93 :: rest) := by
        cases tl with
        | nil => simp [serArr, numStop, isDigit]
        | cons v2 tl2 => simp [serArr, numStop, isDigit]
      have hv := ih.1 v (serArr tl false ++ 93 :: rest) hszv hstop
      rw [parseArrItems, hv]
      cases tl with
      | nil => simp [serArr]
      | cons v2 tl2 =>
        have hrec := ih.2.1 v2 tl2 rest (by
          have := jsize_pos v
          omega)
        rw [show serArr (JsonArr.cons v2 tl2) false ++ 93 :: rest =
          44 :: (serJson v2 ++ (serArr tl2 false ++ 93 :: rest)) by
            simp [serArr, List.append_assoc]]
        simp [hrec]
    · intro k v tl rest hsz
      have heq : osize (JsonObj.cons k v tl) = jsize v + osize tl + 1 := rfl
      have hszv : jsize v < fuel := by
        have := osize_pos tl
        omega
      have hstop : numStop (serObj tl false ++ 125 :: rest) := by
        cases tl with
        | nil => simp [serObj, numStop, isDigit]
        | cons k2 v2 tl2 => simp [serObj, numStop, isDigit]
      have hv := ih.1 v (serObj tl false ++ 125 :: rest) hszv hstop
      have hk := parseStrBody_enc k
        (encStrBody k ++ 34 :: (58 :: (serJson v ++ (serObj tl false ++ 125 :: rest)))).length
        (58 :: (serJson v ++ (serObj tl false ++ 125 :: rest))) (by simp)
      rw [show encStr k ++ 58 :: (serJson v ++ (serObj tl false ++ 125 :: rest)) =
        34 :: (encStrBody k ++ 34 :: (58 :: (serJson v ++ (serObj tl false ++ 125 :: rest)))) by
          simp [encStr, List.append_assoc]]
      rw [parseObjItems, hk]
      simp only [hv]
      cases tl with
      | nil => simp [serObj]
      | cons k2 v2 tl2 =>
        have hrec := ih.2.2 k2 v2 tl2 rest (by
          have := jsize_pos v
          omega)
        rw [show serObj (JsonObj.cons k2 v2 tl2) false ++ 125 :: rest =
          44 :: (encStr k2 ++ 58 :: (serJson v2 ++ (serObj tl2 false ++ 125 :: rest))) by
            simp [serObj, List.append_assoc]]
        simp [hrec]

/-- pkt_hdr_t from pkt.go.  `Ty` embeds the Go field `Type` and `End`
the field `End` (renamed where Lean reserves the word); strings are byte
lists, `See` a list of strings, and `Custom` the raw JSON application
header `_` as a structured value (`none` when absent, matching
omitempty).  Field order matches the Go struct, which fixes the JSON
encoder's output order. -/
@[ext]
structure pkt_hdr_t where
  Ty : List Nat := []
  Line : List Nat := []
  Iv : List Nat := []
  Open : List Nat := []
  Sig : List Nat := []
  C : List Nat := []
  To : List Nat := []
  At : Int := 0
  Family : List Nat := []
  Seq : Int := 0
  Ack : Option Int := none
  Miss : List Int := []
  End : Bool := false
  Err : List Nat := []
  Seek : List Nat := []
  See : List (List Nat) := []
  Peer : List Nat := []
  IP : List Nat := []
  Port : Int := 0
  Custom : Option Json := none
deriving DecidableEq

/-- A JSON array of integers. -/
def jarrOfInts : List Int → JsonArr
  | [] => .nil
  | i :: tl => .cons (.num i) (jarrOfInts tl)

/-- Read back a list of integers from a JSON array. -/
def intsOfJarr : JsonArr → Option (List Int)
  | .nil => some []
  | .cons (.num i) tl => (intsOfJarr tl).map (fun l => i :: l)
  | _ => none

/-- A JSON array of strings. -/
def jarrOfStrs : List (List Nat) → JsonArr
  | [] => .nil
  | s :: tl => .cons (.str s) (jarrOfStrs tl)

/-- Read back a list of strings from a JSON array. -/
def strsOfJarr : JsonArr → Option (List (List Nat))
  | .nil => some []
  | .cons (.str s) tl => (strsOfJarr tl).map (fun l => s :: l)
  | _ => none

/-- The key/value pairs the Go encoder emits for a header: fields in
struct order, zero values omitted (omitempty). -/
def hdrPairs (h : pkt_hdr_t) : List (List Nat × Json) :=
  (if h.Ty = [] then [] else [(s2b "type", Json.str h.Ty)]) ++
  (if h.Line = [] then [] else [(s2b "line", Json.str h.Line)]) ++
  (if h.Iv = [] then [] else [(s2b "iv", Json.str h.Iv)]) ++
  (if h.Open = [] then [] else [(s2b "open", Json.str h.Open)]) ++
  (if h.Sig = [] then [] else [(s2b "sig", Json.str h.Sig)]) ++
  (if h.C = [] then [] else [(s2b "c", Json.str h.C)]) ++
  (if h.To = [] then [] else [(s2b "to", Json.str h.To)]) ++
  (if h.At = 0 then [] else [(s2b "at", Json.num h.At)]) ++
  (if h.Family = [] then [] else [(s2b "family", Json.str h.Family)]) ++
  (if h.Seq = 0 then [] else [(s2b "seq", Json.num h.Seq)]) ++
  (if h.Ack.isNone then [] else [(s2b "ack", Json.num (h.Ack.getD 0))]) ++
  (if h.Miss = [] then [] else [(s2b "miss", Json.arr (jarrOfInts h.Miss))]) ++
  (if h.End = false then [] else [(s2b "end", Json.jbool h.End)]) ++
  (if h.Err = [] then [] else [(s2b "err", Json.str h.Err)]) ++
  (if h.Seek = [] then [] else [(s2b "seek", Json.str h.Seek)]) ++
  (if h.See = [] then [] else [(s2b "see", Json.arr (jarrOfStrs h.See))]) ++
  (if h.Peer = [] then [] else [(s2b "peer", Json.str h.Peer)]) ++
  (if h.IP = [] then [] else [(s2b "ip", Json.str h.IP)]) ++
  (if h.Port = 0 then [] else [(s2b "port", Json.num h.Port)]) ++
  (if h.Custom.isNone then [] else [(s2b "_", h.Custom.getD Json.null)])

/-- One serialised object member. -/
def encField (kv : List Nat × Json) : List Nat := encStr kv.1 ++ 58 :: serJson kv.2

/-- Comma-join a list of serialised members. -/
def joinComma : List (List Nat) → List Nat
  | [] => []
  | [x] => x
  | x :: y :: rest => x ++ 44 :: joinComma (y :: rest)

/-- The byte output of json.Encoder.Encode for a header: the compact
object followed by a newline. -/
def encodeHdr (h : pkt_hdr_t) : List Nat :=
  123 :: (joinComma ((hdrPairs h).map encField) ++ [125, 10])

/-- Decode one object member into the header under construction; the
value's JSON type must match the field's Go type, as in encoding/json. -/
def applyKey (h : pkt_hdr_t) (k : List Nat) (v : Json) : Option pkt_hdr_t :=
  if k = s2b "type" then match v with | .str s => some { h with Ty := s } | _ => none
  else if k = s2b "line" then match v with | .str s => some { h with Line := s } | _ => none
  else if k = s2b "iv" then match v with | .str s => some { h with Iv := s } | _ => none
  else if k = s2b "open" then match v with | .str s => some { h with Open := s } | _ => none
  else if k = s2b "sig" then match v with | .str s => some { h with Sig := s } | _ => none
  else if k = s2b "c" then match v with | .str s => some { h with C := s } | _ => none
  else if k = s2b "to" then match v with | .str s => some { h with To := s } | _ => none
  else if k = s2b "at" then match v with | .num i => some { h with At := i } | _ => none
  else if k = s2b "family" then match v with | .str s => some { h with Family := s } | _ => none
  else if k = s2b "seq" then match v with | .num i => some { h with Seq := i } | _ => none
  else if k = s2b "ack" then match v with | .num i => some { h with Ack := some i } | _ => none
  else if k = s2b "miss" then
    match v with
    | .arr es => (intsOfJarr es).map (fun l => { h with Miss := l })
    | _ => none
  else if k = s2b "end" then match v with | .jbool b => some { h with End := b } | _ => none
  else if k = s2b "err" then match v with | .str s => some { h with Err := s } | _ => none
  else if k = s2b "seek" then match v with | .str s => some { h with Seek := s } | _ => none
  else if k = s2b "see" then
    match v with
    | .arr es => (strsOfJarr es).map (fun l => { h with See := l })
    | _ => none
  else if k = s2b "peer" then match v with | .str s => some { h with Peer := s } | _ => none
  else if k = s2b "ip" then match v with | .str s => some { h with IP := s } | _ => none
  else if k = s2b "port" then match v with | .num i => some { h with Port := i } | _ => none
  else if k = s2b "_" then some { h with Custom := some v }
  else none

/-- Fold a sequence of decoded members into a header. -/
def applyAll (h : pkt_hdr_t) : List (List Nat × Json) → Option pkt_hdr_t
  | [] => some h
  | kv :: tl =>
    match applyKey h kv.1 kv.2 with
    | none => none
    | some h2 => applyAll h2 tl

/-- The member loop of the header decoder: key string, colon, value,
then a comma to continue or a closing brace to stop. -/
def parseHdrLoop : Nat → List Nat → pkt_hdr_t → Option (pkt_hdr_t × List Nat)
  | 0, _, _ => none
  | fuel + 1, bs, h =>
    match bs with
    | 34 :: rest =>
      match parseStrBody rest.length rest with
      | none => none
      | some (k, r) =>
        match r with
        | 58 :: r2 =>
          match parseVal (2 * r2.length + 1) r2 with
          | none => none
          | some (v, r3) =>
            match applyKey h k v with
            | none => none
            | some h2 =>
              match r3 with
              | 44 :: r4 => parseHdrLoop fuel r4 h2
              | 125 :: r4 => some (h2, r4)
              | _ => none
        | _ => none
    | _ => none

/-- Models the json.Decoder.Decode used by parse_pkt: decode one object
into a zero-valued header, ignoring anything after the object (Go's
Decode leaves trailing bytes, such as the newline, unread). -/
def decodeHdr (bs : List Nat) : Option pkt_hdr_t :=
  match bs with
  | 123 :: rest =>
    if rest.headD 0 = 125 then some {}
    else (parseHdrLoop rest.length rest {}).map (fun hr => hr.1)
  | _ => none

theorem intsOfJarr_jarrOfInts (l : List Int) : intsOfJarr (jarrOfInts l) = some l := by
  induction l with
  | nil => rfl
  | cons i tl ih => simp [jarrOfInts, intsOfJarr, ih]

theorem strsOfJarr_jarrOfStrs (l : List (List Nat)) : strsOfJarr (jarrOfStrs l) = some l := by
  induction l with
  | nil => rfl
  | cons s tl ih => simp [jarrOfStrs, strsOfJarr, ih]

theorem applyKey_type (h : pkt_hdr_t) (s : List Nat) :
    applyKey h (s2b "type") (.str s) = some { h with Ty := s } := rfl

theorem applyKey_line (h : pkt_hdr_t) (s : List Nat) :
    applyKey h (s2b "line") (.str s) = some { h with Line := s } := rfl

theorem applyKey_iv (h : pkt_hdr_t) (s : List Nat) :
    applyKey h (s2b "iv") (.str s) = some { h with Iv := s } := rfl

theorem applyKey_open (h : pkt_hdr_t) (s : List Nat) :
    applyKey h (s2b "open") (.str s) = some { h with Open := s } := rfl

theorem applyKey_sig (h : pkt_hdr_t) (s : List Nat) :
    applyKey h (s2b "sig") (.str s) = some { h with Sig := s } := rfl

theorem applyKey_c (h : pkt_hdr_t) (s : List Nat) :
    applyKey h (s2b "c") (.str s) = some { h with C := s } := rfl

theorem applyKey_to (h : pkt_hdr_t) (s : List Nat) :
    applyKey h (s2b "to") (.str s) = some { h with To := s } := rfl

theorem applyKey_at (h : pkt_hdr_t) (i : Int) :
    applyKey h (s2b "at") (.num i) = some { h with At := i } := rfl

theorem applyKey_family (h : pkt_hdr_t) (s : List Nat) :
    applyKey h (s2b "family") (.str s) = some { h with Family := s } := rfl

theorem applyKey_seq (h : pkt_hdr_t) (i : Int) :
    applyKey h (s2b "seq") (.num i) = some { h with Seq := i } := rfl

theorem applyKey_ack (h : pkt_hdr_t) (i : Int) :
    applyKey h (s2b "ack") (.num i) = some { h with Ack := some i } := rfl

theorem applyKey_miss (h : pkt_hdr_t) (l : List Int) :
    applyKey h (s2b "miss") (.arr (jarrOfInts l)) = some { h with Miss := l } := by
  have h1 : applyKey h (s2b "miss") (.arr (jarrOfInts l)) =
      (intsOfJarr (jarrOfInts l)).map (fun l2 => { h with Miss := l2 }) := rfl
  rw [h1, intsOfJarr_jarrOfInts]
  rfl

theorem applyKey_end (h : pkt_hdr_t) (b : Bool) :
    applyKey h (s2b "end") (.jbool b) = some { h with End := b } := rfl

theorem applyKey_err (h : pkt_hdr_t) (s : List Nat) :
    applyKey h (s2b "err") (.str s) = some { h with Err := s } := rfl

theorem applyKey_seek (h : pkt_hdr_t) (s : List Nat) :
    applyKey h (s2b "seek") (.str s) = some { h with Seek := s } := rfl

theorem applyKey_see (h : pkt_hdr_t) (l : List (List Nat)) :
    applyKey h (s2b "see") (.arr (jarrOfStrs l)) = some { h with See := l } := by
  have h1 : applyKey h (s2b "see") (.arr (jarrOfStrs l)) =
      (strsOfJarr (jarrOfStrs l)).map (fun l2 => { h with See := l2 }) := rfl
  rw [h1, strsOfJarr_jarrOfStrs]
  rfl

theorem applyKey_peer (h : pkt_hdr_t) (s : List Nat) :
    applyKey h (s2b "peer") (.str s) = some { h with Peer := s } := rfl

theorem applyKey_ip (h : pkt_hdr_t) (s : List Nat) :
    applyKey h (s2b "ip") (.str s) = some { h with IP := s } := rfl

theorem applyKey_port (h : pkt_hdr_t) (i : Int) :
    applyKey h (s2b "port") (.num i) = some { h with Port := i } := rfl

theorem applyKey_custom (h : pkt_hdr_t) (v : Json) :
    applyKey h (s2b "_") v = some { h with Custom := some v } := rfl

theorem applyAll_skip {h0 h1 : pkt_hdr_t} {kv : List Nat × Json}
    (happly : applyKey h0 kv.1 kv.2 = some h1) (c : Prop) [Decidable c]
    (rest : List (List Nat × Json)) :
    applyAll h0 ((if c then [] else [kv]) ++ rest) = applyAll (if c then h0 else h1) rest := by
  split
  · rfl
  · simp [applyAll, happly]

theorem applyAll_skip_last {h0 h1 : pkt_hdr_t} {kv : List Nat × Json}
    (happly : applyKey h0 kv.1 kv.2 = some h1) (c : Prop) [Decidable c] :
    applyAll h0 (if c then [] else [kv]) = some (if c then h0 else h1) := by
  split
  · rfl
  · simp [applyAll, happly]


theorem applyAll_append (h0 : pkt_hdr_t) (l1 l2 : List (List Nat × Json)) :
    applyAll h0 (l1 ++ l2) =
      (match applyAll h0 l1 with
       | none => none
       | some h1 => applyAll h1 l2) := by
  induction l1 generalizing h0 with
  | nil => rfl
  | cons kv tl ih =>
    simp only [List.cons_append, applyAll]
    cases applyKey h0 kv.1 kv.2 with
    | none => rfl
    | some h2 => exact ih h2

theorem applyAll_step {h0 h1 : pkt_hdr_t} {l1 : List (List Nat × Json)}
    (hs : applyAll h0 l1 = some h1) (l2 : List (List Nat × Json)) :
    applyAll h0 (l1 ++ l2) = applyAll h1 l2 := by
  rw [applyAll_append, hs]

theorem applyAll_hdrPairs (h : pkt_hdr_t) : applyAll {} (hdrPairs h) = some h := by
  have s1 : applyAll ({} : pkt_hdr_t) (if h.Ty = [] then [] else [(s2b "type", Json.str h.Ty)]) = some ({ Ty := (if h.Ty = [] then [] else h.Ty) } : pkt_hdr_t) := by
    by_cases hc : h.Ty = []
    · simp only [if_pos hc, applyAll]
    · simp only [if_neg hc, applyAll, applyKey_type]
  have s2 : applyAll ({ Ty := (if h.Ty = [] then [] else h.Ty) } : pkt_hdr_t) (if h.Line = [] then [] else [(s2b "line", Json.str h.Line)]) = some ({ Ty := (if h.Ty = [] then [] else h.Ty), Line := (if h.Line = [] then [] else h.Line) } : pkt_hdr_t) := by
    by_cases hc : h.Line = []
    · simp only [if_pos hc, applyAll]
    · simp only [if_neg hc, applyAll, applyKey_line]
  have s3 : applyAll ({ Ty := (if h.Ty = [] then [] else h.Ty), Line := (if h.Line = [] then [] else h.Line) } : pkt_hdr_t) (if h.Iv = [] then [] else [(s2b "iv", Json.str h.Iv)]) = some ({ Ty := (if h.Ty = [] then [] else h.Ty), Line := (if h.Line = [] then [] else h.Line), Iv := (if h.Iv = [] then [] else h.Iv) } : pkt_hdr_t) := by
    by_cases hc : h.Iv = []
    · simp only [if_pos hc, applyAll]
    · simp only [if_neg hc, applyAll, applyKey_iv]
  have s4 : applyAll ({ Ty := (if h.Ty = [] then [] else h.Ty), Line := (if h.Line = [] then [] else h.Line), Iv := (if h.Iv = [] then [] else h.Iv) } : pkt_hdr_t) (if h.Open = [] then [] else [(s2b "open", Json.str h.Open)]) = some ({ Ty := (if h.Ty = [] then [] else h.Ty), Line := (if h.Line = [] then [] else h.Line), Iv := (if h.Iv = [] then [] else h.Iv), Open := (if h.Open = [] then [] else h.Open) } : pkt_hdr_t) := by
    by_cases hc : h.Open = []
    · simp only [if_pos hc, applyAll]
    · simp only [if_neg hc, applyAll, applyKey_open]
  have s5 : applyAll ({ Ty := (if h.Ty = [] then [] else h.Ty), Line := (if h.Line = [] then [] else h.Line), Iv := (if h.Iv = [] then [] else h.Iv), Open := (if h.Open = [] then [] else h.Open) } : pkt_hdr_t) (if h.Sig = [] then [] else [(s2b "sig", Json.str h.Sig)]) = some ({ Ty := (if h.Ty = [] then [] else h.Ty), Line := (if h.Line = [] then [] else h.Line), Iv := (if h.Iv = [] then [] else h.Iv), Open := (if h.Open = [] then [] else h.Open), Sig := (if h.Sig = [] then [] else h.Sig) } : pkt_hdr_t) := by
    by_cases hc : h.Sig = []
    · simp only [if_pos hc, applyAll]
    · simp only [if_neg hc, applyAll, applyKey_sig]
  have s6 : applyAll ({ Ty := (if h.Ty = [] then [] else h.Ty), Line := (if h.Line = [] then [] else h.Line), Iv := (if h.Iv = [] then [] else h.Iv), Open := (if h.Open = [] then [] else h.Open), Sig := (if h.Sig = [] then [] else h.Sig) } : pkt_hdr_t) (if h.C = [] then [] else [(s2b "c", Json.str h.C)]) = some ({ Ty := (if h.Ty = [] then [] else h.Ty), Line := (if h.Line = [] then [] else h.Line), Iv := (if h.Iv = [] then [] else h.Iv), Open := (if h.Open = [] then [] else h.Open), Sig := (if h.Sig = [] then [] else h.Sig), C := (if h.C = [] then [] else h.C) } : pkt_hdr_t) := by
    by_cases hc : h.C = []
    · simp only [if_pos hc, applyAll]
    · simp only [if_neg hc, applyAll, applyKey_c]
  have s7 : applyAll ({ Ty := (if h.Ty = [] then [] else h.Ty), Line := (if h.Line = [] then [] else h.Line), Iv := (if h.Iv = [] then [] else h.Iv), Open := (if h.Open = [] then [] else h.Open), Sig := (if h.Sig = [] then [] else h.Sig), C := (if h.C = [] then [] else h.C) } : pkt_hdr_t) (if h.To = [] then [] else [(s2b "to", Json.str h.To)]) = some ({ Ty := (if h.Ty = [] then [] else h.Ty), Line := (if h.Line = [] then [] else h.Line), Iv := (if h.Iv = [] then [] else h.Iv), Open := (if h.Open = [] then [] else h.Open), Sig := (if h.Sig = [] then [] else h.Sig), C := (if h.C = [] then [] else h.C), To := (if h.To = [] then [] else h.To) } : pkt_hdr_t) := by
    by_cases hc : h.To = []
    · simp only [if_pos hc, applyAll]
    · simp only [if_neg hc, applyAll, applyKey_to]
  have s8 : applyAll ({ Ty := (if h.Ty = [] then [] else h.Ty), Line := (if h.Line = [] then [] else h.Line), Iv := (if h.Iv = [] then [] else h.Iv), Open := (if h.Open = [] then [] else h.Open), Sig := (if h.Sig = [] then [] else h.Sig), C := (if h.C = [] then [] else h.C), To := (if h.To = [] then [] else h.To) } : pkt_hdr_t) (if h.At = 0 then [] else [(s2b "at", Json.num h.At)]) = some ({ Ty := (if h.Ty = [] then [] else h.Ty), Line := (if h.Line = [] then [] else h.Line), Iv := (if h.Iv = [] then [] else h.Iv), Open := (if h.Open = [] then [] else h.Open), Sig := (if h.Sig = [] then [] else h.Sig), C := (if h.C = [] then [] else h.C), To := (if h.To = [] then [] else h.To), At := (if h.At = 0 then 0 else h.At) } : pkt_hdr_t) := by
    by_cases hc : h.At = 0
    · simp only [if_pos hc, applyAll]
    · simp only [if_neg hc, applyAll, applyKey_at]
  have s9 : applyAll ({ Ty := (if h.Ty = [] then [] else h.Ty), Line := (if h.Line = [] then [] else h.Line), Iv := (if h.Iv = [] then [] else h.Iv), Open := (if h.Open = [] then [] else h.Open), Sig := (if h.Sig = [] then [] else h.Sig), C := (if h.C = [] then [] else h.C), To := (if h.To = [] then [] else h.To), At := (if h.At = 0 then 0 else h.At) } : pkt_hdr_t) (if h.Family = [] then [] else [(s2b "family", Json.str h.Family)]) = some ({ Ty := (if h.Ty = [] then [] else h.Ty), Line := (if h.Line = [] then [] else h.Line), Iv := (if h.Iv = [] then [] else h.Iv), Open := (if h.Open = [] then [] else h.Open), Sig := (if h.Sig = [] then [] else h.Sig), C := (if h.C = [] then [] else h.C), To := (if h.To = [] then [] else h.To), At := (if h.At = 0 then 0 else h.At), Family := (if h.Family = [] then [] else h.Family) } : pkt_hdr_t) := by
    by_cases hc : h.Family = []
    · simp only [if_pos hc, applyAll]
    · simp only [if_neg hc, applyAll, applyKey_family]
  have s10 : applyAll ({ Ty := (if h.Ty = [] then [] else h.Ty), Line := (if h.Line = [] then [] else h.Line), Iv := (if h.Iv = [] then [] else h.Iv), Open := (if h.Open = [] then [] else h.Open), Sig := (if h.Sig = [] then [] else h.Sig), C := (if h.C = [] then [] else h.C), To := (if h.To = [] then [] else h.To), At := (if h.At = 0 then 0 else h.At), Family := (if h.Family = [] then [] else h.Family) } : pkt_hdr_t) (if h.Seq = 0 then [] else [(s2b "seq", Json.num h.Seq)]) = some ({ Ty := (if h.Ty = [] then [] else h.Ty), Line := (if h.Line = [] then [] else h.Line), Iv := (if h.Iv = [] then [] else h.Iv), Open := (if h.Open = [] then [] else h.Open), Sig := (if h.Sig = [] then [] else h.Sig), C := (if h.C = [] then [] else h.C), To := (if h.To = [] then [] else h.To), At := (if h.At = 0 then 0 else h.At), Family := (if h.Family = [] then [] else h.Family), Seq := (if h.Seq = 0 then 0 else h.Seq) } : pkt_hdr_t) := by
    by_cases hc : h.Seq = 0
    · simp only [if_pos hc, applyAll]
    · simp only [if_neg hc, applyAll, applyKey_seq]
  have s11 : applyAll ({ Ty := (if h.Ty = [] then [] else h.Ty), Line := (if h.Line = [] then [] else h.Line), Iv := (if h.Iv = [] then [] else h.Iv), Open := (if h.Open = [] then [] else h.Open), Sig := (if h.Sig = [] then [] else h.Sig), C := (if h.C = [] then [] else h.C), To := (if h.To = [] then [] else h.To), At := (if h.At = 0 then 0 else h.At), Family := (if h.Family = [] then [] else h.Family), Seq := (if h.Seq = 0 then 0 else h.Seq) } : pkt_hdr_t) (if h.Ack.isNone = true then [] else [(s2b "ack", Json.num (h.Ack.getD 0))]) = some ({ Ty := (if h.Ty = [] then [] else h.Ty), Line := (if h.Line = [] then [] else h.Line), Iv := (if h.Iv = [] then [] else h.Iv), Open := (if h.Open = [] then [] else h.Open), Sig := (if h.Sig = [] then [] else h.Sig), C := (if h.C = [] then [] else h.C), To := (if h.To = [] then [] else h.To), At := (if h.At = 0 then 0 else h.At), Family := (if h.Family = [] then [] else h.Family), Seq := (if h.Seq = 0 then 0 else h.Seq), Ack := (if h.Ack.isNone = true then none else some (h.Ack.getD 0)) } : pkt_hdr_t) := by
    by_cases hc : h.Ack.isNone = true
    · simp only [if_pos hc, applyAll]
    · simp only [if_neg hc, applyAll, applyKey_ack]
  have s12 : applyAll ({ Ty := (if h.Ty = [] then [] else h.Ty), Line := (if h.Line = [] then [] else h.Line), Iv := (if h.Iv = [] then [] else h.Iv), Open := (if h.Open = [] then [] else h.Open), Sig := (if h.Sig = [] then [] else h.Sig), C := (if h.C = [] then [] else h.C), To := (if h.To = [] then [] else h.To), At := (if h.At = 0 then 0 else h.At), Family := (if h.Family = [] then [] else h.Family), Seq := (if h.Seq = 0 then 0 else h.Seq), Ack := (if h.Ack.isNone = true then none else some (h.Ack.getD 0)) } : pkt_hdr_t) (if h.Miss = [] then [] else [(s2b "miss", Json.arr (jarrOfInts h.Miss))]) = some ({ Ty := (if h.Ty = [] then [] else h.Ty), Line := (if h.Line = [] then [] else h.Line), Iv := (if h.Iv = [] then [] else h.Iv), Open := (if h.Open = [] then [] else h.Open), Sig := (if h.Sig = [] then [] else h.Sig), C := (if h.C = [] then [] else h.C), To := (if h.To = [] then [] else h.To), At := (if h.At = 0 then 0 else h.At), Family := (if h.Family = [] then [] else h.Family), Seq := (if h.Seq = 0 then 0 else h.Seq), Ack := (if h.Ack.isNone = true then none else some (h.Ack.getD 0)), Miss := (if h.Miss = [] then [] else h.Miss) } : pkt_hdr_t) := by
    by_cases hc : h.Miss = []
    · simp only [if_pos hc, applyAll]
    · simp only [if_neg hc, applyAll, applyKey_miss]
  have s13 : applyAll ({ Ty := (if h.Ty = [] then [] else h.Ty), Line := (if h.Line = [] then [] else h.Line), Iv := (if h.Iv = [] then [] else h.Iv), Open := (if h.Open = [] then [] else h.Open), Sig := (if h.Sig = [] then [] else h.Sig), C := (if h.C = [] then [] else h.C), To := (if h.To = [] then [] else h.To), At := (if h.At = 0 then 0 else h.At), Family := (if h.Family = [] then [] else h.Family), Seq := (if h.Seq = 0 then 0 else h.Seq), Ack := (if h.Ack.isNone = true then none else some (h.Ack.getD 0)), Miss := (if h.Miss = [] then [] else h.Miss) } : pkt_hdr_t) (if h.End = false then [] else [(s2b "end", Json.jbool h.End)]) = some ({ Ty := (if h.Ty = [] then [] else h.Ty), Line := (if h.Line = [] then [] else h.Line), Iv := (if h.Iv = [] then [] else h.Iv), Open := (if h.Open = [] then [] else h.Open), Sig := (if h.Sig = [] then [] else h.Sig), C := (if h.C = [] then [] else h.C), To := (if h.To = [] then [] else h.To), At := (if h.At = 0 then 0 else h.At), Family := (if h.Family = [] then [] else h.Family), Seq := (if h.Seq = 0 then 0 else h.Seq), Ack := (if h.Ack.isNone = true then none else some (h.Ack.getD 0)), Miss := (if h.Miss = [] then [] else h.Miss), End := (if h.End = false then false else h.End) } : pkt_hdr_t) := by
    by_cases hc : h.End = false
    · simp only [if_pos hc, applyAll]
    · simp only [if_neg hc, applyAll, applyKey_end]
  have s14 : applyAll ({ Ty := (if h.Ty = [] then [] else h.Ty), Line := (if h.Line = [] then [] else h.Line), Iv := (if h.Iv = [] then [] else h.Iv), Open := (if h.Open = [] then [] else h.Open), Sig := (if h.Sig = [] then [] else h.Sig), C := (if h.C = [] then [] else h.C), To := (if h.To = [] then [] else h.To), At := (if h.At = 0 then 0 else h.At), Family := (if h.Family = [] then [] else h.Family), Seq := (if h.Seq = 0 then 0 else h.Seq), Ack := (if h.Ack.isNone = true then none else some (h.Ack.getD 0)), Miss := (if h.Miss = [] then [] else h.Miss), End := (if h.End = false then false else h.End) } : pkt_hdr_t) (if h.Err = [] then [] else [(s2b "err", Json.str h.Err)]) = some ({ Ty := (if h.Ty = [] then [] else h.Ty), Line := (if h.Line = [] then [] else h.Line), Iv := (if h.Iv = [] then [] else h.Iv), Open := (if h.Open = [] then [] else h.Open), Sig := (if h.Sig = [] then [] else h.Sig), C := (if h.C = [] then [] else h.C), To := (if h.To = [] then [] else h.To), At := (if h.At = 0 then 0 else h.At), Family := (if h.Family = [] then [] else h.Family), Seq := (if h.Seq = 0 then 0 else h.Seq), Ack := (if h.Ack.isNone = true then none else some (h.Ack.getD 0)), Miss := (if h.Miss = [] then [] else h.Miss), End := (if h.End = false then false else h.End), Err := (if h.Err = [] then [] else h.Err) } : pkt_hdr_t) := by
    by_cases hc : h.Err = []
    · simp only [if_pos hc, applyAll]
    · simp only [if_neg hc, applyAll, applyKey_err]
  have s15 : applyAll ({ Ty := (if h.Ty = [] then [] else h.Ty), Line := (if h.Line = [] then [] else h.Line), Iv := (if h.Iv = [] then [] else h.Iv), Open := (if h.Open = [] then [] else h.Open), Sig := (if h.Sig = [] then [] else h.Sig), C := (if h.C = [] then [] else h.C), To := (if h.To = [] then [] else h.To), At := (if h.At = 0 then 0 else h.At), Family := (if h.Family = [] then [] else h.Family), Seq := (if h.Seq = 0 then 0 else h.Seq), Ack := (if h.Ack.isNone = true then none else some (h.Ack.getD 0)), Miss := (if h.Miss = [] then [] else h.Miss), End := (if h.End = false then false else h.End), Err := (if h.Err = [] then [] else h.Err) } : pkt_hdr_t) (if h.Seek = [] then [] else [(s2b "seek", Json.str h.Seek)]) = some ({ Ty := (if h.Ty = [] then [] else h.Ty), Line := (if h.Line = [] then [] else h.Line), Iv := (if h.Iv = [] then [] else h.Iv), Open := (if h.Open = [] then [] else h.Open), Sig := (if h.Sig = [] then [] else h.Sig), C := (if h.C = [] then [] else h.C), To := (if h.To = [] then [] else h.To), At := (if h.At = 0 then 0 else h.At), Family := (if h.Family = [] then [] else h.Family), Seq := (if h.Seq = 0 then 0 else h.Seq), Ack := (if h.Ack.isNone = true then none else some (h.Ack.getD 0)), Miss := (if h.Miss = [] then [] else h.Miss), End := (if h.End = false then false else h.End), Err := (if h.Err = [] then [] else h.Err), Seek := (if h.Seek = [] then [] else h.Seek) } : pkt_hdr_t) := by
    by_cases hc : h.Seek = []
    · simp only [if_pos hc, applyAll]
    · simp only [if_neg hc, applyAll, applyKey_seek]
  have s16 : applyAll ({ Ty := (if h.Ty = [] then [] else h.Ty), Line := (if h.Line = [] then [] else h.Line), Iv := (if h.Iv = [] then [] else h.Iv), Open := (if h.Open = [] then [] else h.Open), Sig := (if h.Sig = [] then [] else h.Sig), C := (if h.C = [] then [] else h.C), To := (if h.To = [] then [] else h.To), At := (if h.At = 0 then 0 else h.At), Family := (if h.Family = [] then [] else h.Family), Seq := (if h.Seq = 0 then 0 else h.Seq), Ack := (if h.Ack.isNone = true then none else some (h.Ack.getD 0)), Miss := (if h.Miss = [] then [] else h.Miss), End := (if h.End = false then false else h.End), Err := (if h.Err = [] then [] else h.Err), Seek := (if h.Seek = [] then [] else h.Seek) } : pkt_hdr_t) (if h.See = [] then [] else [(s2b "see", Json.arr (jarrOfStrs h.See))]) = some ({ Ty := (if h.Ty = [] then [] else h.Ty), Line := (if h.Line = [] then [] else h.Line), Iv := (if h.Iv = [] then [] else h.Iv), Open := (if h.Open = [] then [] else h.Open), Sig := (if h.Sig = [] then [] else h.Sig), C := (if h.C = [] then [] else h.C), To := (if h.To = [] then [] else h.To), At := (if h.At = 0 then 0 else h.At), Family := (if h.Family = [] then [] else h.Family), Seq := (if h.Seq = 0 then 0 else h.Seq), Ack := (if h.Ack.isNone = true then none else some (h.Ack.getD 0)), Miss := (if h.Miss = [] then [] else h.Miss), End := (if h.End = false then false else h.End), Err := (if h.Err = [] then [] else h.Err), Seek := (if h.Seek = [] then [] else h.Seek), See := (if h.See = [] then [] else h.See) } : pkt_hdr_t) := by
    by_cases hc : h.See = []
    · simp only [if_pos hc, applyAll]
    · simp only [if_neg hc, applyAll, applyKey_see]
  have s17 : applyAll ({ Ty := (if h.Ty = [] then [] else h.Ty), Line := (if h.Line = [] then [] else h.Line), Iv := (if h.Iv = [] then [] else h.Iv), Open := (if h.Open = [] then [] else h.Open), Sig := (if h.Sig = [] then [] else h.Sig), C := (if h.C = [] then [] else h.C), To := (if h.To = [] then [] else h.To), At := (if h.At = 0 then 0 else h.At), Family := (if h.Family = [] then [] else h.Family), Seq := (if h.Seq = 0 then 0 else h.Seq), Ack := (if h.Ack.isNone = true then none else some (h.Ack.getD 0)), Miss := (if h.Miss = [] then [] else h.Miss), End := (if h.End = false then false else h.End), Err := (if h.Err = [] then [] else h.Err), Seek := (if h.Seek = [] then [] else h.Seek), See := (if h.See = [] then [] else h.See) } : pkt_hdr_t) (if h.Peer = [] then [] else [(s2b "peer", Json.str h.Peer)]) = some ({ Ty := (if h.Ty = [] then [] else h.Ty), Line := (if h.Line = [] then [] else h.Line), Iv := (if h.Iv = [] then [] else h.Iv), Open := (if h.Open = [] then [] else h.Open), Sig := (if h.Sig = [] then [] else h.Sig), C := (if h.C = [] then [] else h.C), To := (if h.To = [] then [] else h.To), At := (if h.At = 0 then 0 else h.At), Family := (if h.Family = [] then [] else h.Family), Seq := (if h.Seq = 0 then 0 else h.Seq), Ack := (if h.Ack.isNone = true then none else some (h.Ack.getD 0)), Miss := (if h.Miss = [] then [] else h.Miss), End := (if h.End = false then false else h.End), Err := (if h.Err = [] then [] else h.Err), Seek := (if h.Seek = [] then [] else h.Seek), See := (if h.See = [] then [] else h.See), Peer := (if h.Peer = [] then [] else h.Peer) } : pkt_hdr_t) := by
    by_cases hc : h.Peer = []
    · simp only [if_pos hc, applyAll]
    · simp only [if_neg hc, applyAll, applyKey_peer]
  have s18 : applyAll ({ Ty := (if h.Ty = [] then [] else h.Ty), Line := (if h.Line = [] then [] else h.Line), Iv := (if h.Iv = [] then [] else h.Iv), Open := (if h.Open = [] then [] else h.Open), Sig := (if h.Sig = [] then [] else h.Sig), C := (if h.C = [] then [] else h.C), To := (if h.To = [] then [] else h.To), At := (if h.At = 0 then 0 else h.At), Family := (if h.Family = [] then [] else h.Family), Seq := (if h.Seq = 0 then 0 else h.Seq), Ack := (if h.Ack.isNone = true then none else some (h.Ack.getD 0)), Miss := (if h.Miss = [] then [] else h.Miss), End := (if h.End = false then false else h.End), Err := (if h.Err = [] then [] else h.Err), Seek := (if h.Seek = [] then [] else h.Seek), See := (if h.See = [] then [] else h.See), Peer := (if h.Peer = [] then [] else h.Peer) } : pkt_hdr_t) (if h.IP = [] then [] else [(s2b "ip", Json.str h.IP)]) = some ({ Ty := (if h.Ty = [] then [] else h.Ty), Line := (if h.Line = [] then [] else h.Line), Iv := (if h.Iv = [] then [] else h.Iv), Open := (if h.Open = [] then [] else h.Open), Sig := (if h.Sig = [] then [] else h.Sig), C := (if h.C = [] then [] else h.C), To := (if h.To = [] then [] else h.To), At := (if h.At = 0 then 0 else h.At), Family := (if h.Family = [] then [] else h.Family), Seq := (if h.Seq = 0 then 0 else h.Seq), Ack := (if h.Ack.isNone = true then none else some (h.Ack.getD 0)), Miss := (if h.Miss = [] then [] else h.Miss), End := (if h.End = false then false else h.End), Err := (if h.Err = [] then [] else h.Err), Seek := (if h.Seek = [] then [] else h.Seek), See := (if h.See = [] then [] else h.See), Peer := (if h.Peer = [] then [] else h.Peer), IP := (if h.IP = [] then [] else h.IP) } : pkt_hdr_t) := by
    by_cases hc : h.IP = []
    · simp only [if_pos hc, applyAll]
    · simp only [if_neg hc, applyAll, applyKey_ip]
  have s19 : applyAll ({ Ty := (if h.Ty = [] then [] else h.Ty), Line := (if h.Line = [] then [] else h.Line), Iv := (if h.Iv = [] then [] else h.Iv), Open := (if h.Open = [] then [] else h.Open), Sig := (if h.Sig = [] then [] else h.Sig), C := (if h.C = [] then [] else h.C), To := (if h.To = [] then [] else h.To), At := (if h.At = 0 then 0 else h.At), Family := (if h.Family = [] then [] else h.Family), Seq := (if h.Seq = 0 then 0 else h.Seq), Ack := (if h.Ack.isNone = true then none else some (h.Ack.getD 0)), Miss := (if h.Miss = [] then [] else h.Miss), End := (if h.End = false then false else h.End), Err := (if h.Err = [] then [] else h.Err), Seek := (if h.Seek = [] then [] else h.Seek), See := (if h.See = [] then [] else h.See), Peer := (if h.Peer = [] then [] else h.Peer), IP := (if h.IP = [] then [] else h.IP) } : pkt_hdr_t) (if h.Port = 0 then [] else [(s2b "port", Json.num h.Port)]) = some ({ Ty := (if h.Ty = [] then [] else h.Ty), Line := (if h.Line = [] then [] else h.Line), Iv := (if h.Iv = [] then [] else h.Iv), Open := (if h.Open = [] then [] else h.Open), Sig := (if h.Sig = [] then [] else h.Sig), C := (if h.C = [] then [] else h.C), To := (if h.To = [] then [] else h.To), At := (if h.At = 0 then 0 else h.At), Family := (if h.Family = [] then [] else h.Family), Seq := (if h.Seq = 0 then 0 else h.Seq), Ack := (if h.Ack.isNone = true then none else some (h.Ack.getD 0)), Miss := (if h.Miss = [] then [] else h.Miss), End := (if h.End = false then false else h.End), Err := (if h.Err = [] then [] else h.Err), Seek := (if h.Seek = [] then [] else h.Seek), See := (if h.See = [] then [] else h.See), Peer := (if h.Peer = [] then [] else h.Peer), IP := (if h.IP = [] then [] else h.IP), Port := (if h.Port = 0 then 0 else h.Port) } : pkt_hdr_t) := by
    by_cases hc : h.Port = 0
    · simp only [if_pos hc, applyAll]
    · simp only [if_neg hc, applyAll, applyKey_port]
  have s20 : applyAll ({ Ty := (if h.Ty = [] then [] else h.Ty), Line := (if h.Line = [] then [] else h.Line), Iv := (if h.Iv = [] then [] else h.Iv), Open := (if h.Open = [] then [] else h.Open), Sig := (if h.Sig = [] then [] else h.Sig), C := (if h.C = [] then [] else h.C), To := (if h.To = [] then [] else h.To), At := (if h.At = 0 then 0 else h.At), Family := (if h.Family = [] then [] else h.Family), Seq := (if h.Seq = 0 then 0 else h.Seq), Ack := (if h.Ack.isNone = true then none else some (h.Ack.getD 0)), Miss := (if h.Miss = [] then [] else h.Miss), End := (if h.End = false then false else h.End), Err := (if h.Err = [] then [] else h.Err), Seek := (if h.Seek = [] then [] else h.Seek), See := (if h.See = [] then [] else h.See), Peer := (if h.Peer = [] then [] else h.Peer), IP := (if h.IP = [] then [] else h.IP), Port := (if h.Port = 0 then 0 else h.Port) } : pkt_hdr_t) (if h.Custom.isNone = true then [] else [(s2b "_", h.Custom.getD Json.null)]) = some ({ Ty := (if h.Ty = [] then [] else h.Ty), Line := (if h.Line = [] then [] else h.Line), Iv := (if h.Iv = [] then [] else h.Iv), Open := (if h.Open = [] then [] else h.Open), Sig := (if h.Sig = [] then [] else h.Sig), C := (if h.C = [] then [] else h.C), To := (if h.To = [] then [] else h.To), At := (if h.At = 0 then 0 else h.At), Family := (if h.Family = [] then [] else h.Family), Seq := (if h.Seq = 0 then 0 else h.Seq), Ack := (if h.Ack.isNone = true then none else some (h.Ack.getD 0)), Miss := (if h.Miss = [] then [] else h.Miss), End := (if h.End = false then false else h.End), Err := (if h.Err = [] then [] else h.Err), Seek := (if h.Seek = [] then [] else h.Seek), See := (if h.See = [] then [] else h.See), Peer := (if h.Peer = [] then [] else h.Peer), IP := (if h.IP = [] then [] else h.IP), Port := (if h.Port = 0 then 0 else h.Port), Custom := (if h.Custom.isNone = true then none else some (h.Custom.getD Json.null)) } : pkt_hdr_t) := by
    by_cases hc : h.Custom.isNone = true
    · simp only [if_pos hc, applyAll]
    · simp only [if_neg hc, applyAll, applyKey_custom]
  unfold hdrPairs
  simp only [List.append_assoc]
  rw [applyAll_step s1,
      applyAll_step s2,
      applyAll_step s3,
      applyAll_step s4,
      applyAll_step s5,
      applyAll_step s6,
      applyAll_step s7,
      applyAll_step s8,
      applyAll_step s9,
      applyAll_step s10,
      applyAll_step s11,
      applyAll_step s12,
      applyAll_step s13,
      applyAll_step s14,
      applyAll_step s15,
      applyAll_step s16,
      applyAll_step s17,
      applyAll_step s18,
      applyAll_step s19,
      s20]
  refine congrArg some ?_
  ext
  · by_cases hc : h.Ty = [] <;> simp [hc]
  · by_cases hc : h.Line = [] <;> simp [hc]
  · by_cases hc : h.Iv = [] <;> simp [hc]
  · by_cases hc : h.Open = [] <;> simp [hc]
  · by_cases hc : h.Sig = [] <;> simp [hc]
  · by_cases hc : h.C = [] <;> simp [hc]
  · by_cases hc : h.To = [] <;> simp [hc]
  · by_cases hc : h.At = 0 <;> simp [hc]
  · by_cases hc : h.Family = [] <;> simp [hc]
  · by_cases hc : h.Seq = 0 <;> simp [hc]
  · cases hA : h.Ack <;> simp [hA]
  · by_cases hc : h.Miss = [] <;> simp [hc]
  · by_cases hc : h.End = false <;> simp [hc]
  · by_cases hc : h.Err = [] <;> simp [hc]
  · by_cases hc : h.Seek = [] <;> simp [hc]
  · by_cases hc : h.See = [] <;> simp [hc]
  · by_cases hc : h.Peer = [] <;> simp [hc]
  · by_cases hc : h.IP = [] <;> simp [hc]
  · by_cases hc : h.Port = 0 <;> simp [hc]
  · cases hC : h.Custom <;> simp [hC]

theorem hdrPairs_nil {h : pkt_hdr_t} (hp : hdrPairs h = []) : ({} : pkt_hdr_t) = h := by
  have h2 := applyAll_hdrPairs h
  rw [hp] at h2
  exact Option.some.inj h2

/-- The member loop parses an encoded member sequence into the fold of
its key/value updates. -/
theorem parseHdrLoop_fields :
    ∀ (tl : List (List Nat × Json)) (k : List Nat) (v : Json) (h0 : pkt_hdr_t)
      (fuel : Nat) (rest : List Nat), tl.length < fuel →
      parseHdrLoop fuel (joinComma (((k, v) :: tl).map encField) ++ 125 :: rest) h0 =
        (applyAll h0 ((k, v) :: tl)).map (fun h2 => (h2, rest)) := by
  intro tl
  induction tl with
  | nil =>
    intro k v h0 fuel rest hfuel
    cases fuel with
    | zero => omega
    | succ fuel =>
      have hsz := serJson_fuel v
      have hv := (parse_ser (2 * (serJson v ++ 125 :: rest).length + 1)).1 v (125 :: rest)
        (by simp [List.length_append]; omega) (by simp [numStop, isDigit])
      have hk := parseStrBody_enc k
        (encStrBody k ++ 34 :: (58 :: (serJson v ++ 125 :: rest))).length
        (58 :: (serJson v ++ 125 :: rest)) (by simp)
      rw [show joinComma ([(k, v)].map encField) ++ 125 :: rest =
        34 :: (encStrBody k ++ 34 :: (58 :: (serJson v ++ 125 :: rest))) by
          simp [joinComma, encField, encStr, List.append_assoc]]
      rw [parseHdrLoop, hk]
      simp only [hv]
      cases happ : applyKey h0 k v with
      | none => simp [applyAll, happ]
      | some h2 => simp [applyAll, happ]
  | cons kv2 tl ih =>
    intro k v h0 fuel rest hfuel
    obtain ⟨k2, v2⟩ := kv2
    cases fuel with
    | zero => omega
    | succ fuel =>
      have hsz := serJson_fuel v
      have hv := (parse_ser
          (2 * (serJson v ++ 44 :: (joinComma (((k2, v2) :: tl).map encField) ++ 125 :: rest)).length + 1)).1
        v (44 :: (joinComma (((k2, v2) :: tl).map encField) ++ 125 :: rest))
        (by simp [List.length_append]; omega) (by simp [numStop, isDigit])
      have hk := parseStrBody_enc k
        (encStrBody k ++ 34 :: (58 :: (serJson v ++ 44 :: (joinComma (((k2, v2) :: tl).map encField) ++ 125 :: rest)))).length
        (58 :: (serJson v ++ 44 :: (joinComma (((k2, v2) :: tl).map encField) ++ 125 :: rest))) (by simp)
      rw [show joinComma ((((k, v)) :: (k2, v2) :: tl).map encField) ++ 125 :: rest =
        34 :: (encStrBody k ++ 34 :: (58 :: (serJson v ++ 44 :: (joinComma (((k2, v2) :: tl).map encField) ++ 125 :: rest)))) by
          simp [joinComma, encField, encStr, List.append_assoc]]
      rw [parseHdrLoop, hk]
      simp only [hv]
      cases happ : applyKey h0 k v with
      | none => simp [applyAll, happ]
      | some h2 =>
        have hrec := ih k2 v2 h2 fuel rest (by simp at hfuel ⊢; omega)
        simp [applyAll, happ]
        exact hrec

theorem joinComma_encField_len :
    ∀ (pairs : List (List Nat × Json)), pairs.length ≤ (joinComma (pairs.map encField)).length := by
  intro pairs
  induction pairs with
  | nil => simp [joinComma]
  | cons kv tl ih =>
    cases tl with
    | nil => simp [joinComma, encField, encStr]
    | cons kv2 tl2 =>
      have h1 : 1 ≤ (encField kv).length := by simp [encField, encStr]
      simp only [List.map_cons, joinComma, List.length_cons, List.length_append] at ih ⊢
      simp at ih ⊢
      omega

theorem joinComma_encField_head (k : List Nat) (v : Json) (tl : List (List Nat × Json)) :
    ∃ cs, joinComma (((k, v) :: tl).map encField) = 34 :: cs := by
  cases tl with
  | nil => exact ⟨encStrBody k ++ [34] ++ 58 :: serJson v, by simp [joinComma, encField, encStr]⟩
  | cons kv2 tl2 =>
    exact ⟨(encStrBody k ++ [34] ++ 58 :: serJson v) ++
      44 :: joinComma ((kv2 :: tl2).map encField), by simp [joinComma, encField, encStr]⟩

/-- Decoding inverts encoding for every header. -/
theorem decodeHdr_encodeHdr (h : pkt_hdr_t) : decodeHdr (encodeHdr h) = some h := by
  unfold encodeHdr decodeHdr
  rcases hp : hdrPairs h with _ | ⟨⟨k, v⟩, tl⟩
  · simp [joinComma, hdrPairs_nil hp]
  · have hlen : tl.length <
        (joinComma (((k, v) :: tl).map encField) ++ [125, 10]).length := by
      have := joinComma_encField_len ((k, v) :: tl)
      simp only [List.length_append] at this ⊢
      simp at this ⊢
      omega
    have hloop := parseHdrLoop_fields tl k v {}
      (joinComma (((k, v) :: tl).map encField) ++ [125, 10]).length [10] hlen
    rcases joinComma_encField_head k v tl with ⟨cs, hcs⟩
    have happ : applyAll {} ((k, v) :: tl) = some h := by
      rw [← hp]
      exact applyAll_hdrPairs h
    rw [show joinComma (((k, v) :: tl).map encField) ++ 125 :: [10] =
      joinComma (((k, v) :: tl).map encField) ++ [125, 10] from rfl] at hloop
    rw [happ] at hloop
    simp only [hcs, List.cons_append] at hloop ⊢
    simp only [List.headD_cons]
    rw [if_neg (by omega), hloop]
    rfl

/-- pkt_t from pkt.go, restricted to the framed parts: the addr and peer
fields are transport metadata the codec never serialises. -/
structure pkt_t where
  hdr : pkt_hdr_t := {}
  body : List Nat := []
deriving DecidableEq

/-- The two failure kinds of parse_pkt: a frame error (too short, or a
declared length past the end) and a header JSON decoding error. -/
inductive pktError where
  | malformedFrame
  | malformedHeader
deriving DecidableEq

/-- Big-endian bytes of a 16-bit value, as binary.BigEndian.PutUint16
writes them. -/
def be16 (v : Nat) : List Nat := [v / 256, v % 256]

/-- format_pkt from pkt.go: two length-prefix bytes holding the uint16
truncation of the encoder output length, then the JSON header segment
(with the encoder's trailing newline), then the body verbatim. -/
def format_pkt (p : pkt_t) : List Nat :=
  be16 ((encodeHdr p.hdr).length % 65536) ++ (encodeHdr p.hdr ++ p.body)

/-- The 16-bit big-endian header length declared by a frame. -/
def declaredHdrLen (bs : List Nat) : Nat :=
  match bs with
  | b0 :: b1 :: _ => b0 * 256 + b1
  | _ => 0

/-- parse_pkt from pkt.go: reject frames shorter than 4 bytes and frames
whose declared header length implies a negative body length, then decode
the header segment and copy the body (absent body becomes the empty
body). -/
def parse_pkt (bs : List Nat) : Except pktError pkt_t :=
  if bs.length < 4 then .error .malformedFrame
  else if bs.length < declaredHdrLen bs + 2 then .error .malformedFrame
  else
    match decodeHdr ((bs.drop 2).take (declaredHdrLen bs)) with
    | none => .error .malformedHeader
    | some h => .ok { hdr := h, body := bs.drop (declaredHdrLen bs + 2) }

/-- A packet is wire-well-formed when its encoded header fits the
16-bit length prefix. -/
def wfPkt (p : pkt_t) : Prop := (encodeHdr p.hdr).length < 65536

instance (p : pkt_t) : Decidable (wfPkt p) := Nat.decLt _ _

theorem declaredHdrLen_be16 (v : Nat) (X : List Nat) :
    declaredHdrLen (be16 v ++ X) = v / 256 * 256 + v % 256 := rfl

theorem encodeHdr_len_ge (h : pkt_hdr_t) : 3 ≤ (encodeHdr h).length := by
  simp [encodeHdr]

/-- C6: the codec roundtrips: for every well-formed packet, parsing the
formatted frame succeeds and returns the packet, header and body intact
(the model identifies an absent body with the zero-length body, and an
absent optional header field with its zero value, which is what
omitempty encodes). -/
theorem c6_roundtrip (p : pkt_t) (hwf : wfPkt p) : parse_pkt (format_pkt p) = .ok p := by
  unfold wfPkt at hwf
  have hmod : (encodeHdr p.hdr).length % 65536 = (encodeHdr p.hdr).length :=
    Nat.mod_eq_of_lt hwf
  have hge := encodeHdr_len_ge p.hdr
  have hfrlen : (format_pkt p).length = 2 + ((encodeHdr p.hdr).length + p.body.length) := by
    simp [format_pkt, be16, List.length_append]
    omega
  have hdecl : declaredHdrLen (format_pkt p) = (encodeHdr p.hdr).length := by
    rw [format_pkt, declaredHdrLen_be16, hmod]
    omega
  unfold parse_pkt
  rw [if_neg (by omega), hdecl, if_neg (by omega)]
  have hdrop : (format_pkt p).drop 2 = encodeHdr p.hdr ++ p.body := by
    rw [format_pkt]
    rw [show (2 : Nat) = (be16 ((encodeHdr p.hdr).length % 65536)).length from rfl]
    exact List.drop_left _ _
  have htake : ((format_pkt p).drop 2).take (encodeHdr p.hdr).length = encodeHdr p.hdr := by
    rw [hdrop]
    exact List.take_left _ _
  have hbody : (format_pkt p).drop ((encodeHdr p.hdr).length + 2) = p.body := by
    have h2 : (format_pkt p).drop ((encodeHdr p.hdr).length + 2) =
        ((format_pkt p).drop 2).drop (encodeHdr p.hdr).length := by
      rw [List.drop_drop]
      norm_num [Nat.add_comm]
    rw [h2, hdrop]
    rw [show (encodeHdr p.hdr).length = (encodeHdr p.hdr).length from rfl]
    exact List.drop_left _ _
  rw [htake, decodeHdr_encodeHdr, hbody]

/-- C7: frames shorter than 4 bytes and frames whose declared header
length implies a negative body length fail with a frame error, while the
4-byte frame 00 02 7b 7d parses to the empty header and empty body. -/
theorem c7_malformed_frames :
    (∀ bs : List Nat, bs.length < 4 → parse_pkt bs = .error .malformedFrame) ∧
    (∀ bs : List Nat, 4 ≤ bs.length → bs.length < declaredHdrLen bs + 2 →
      parse_pkt bs = .error .malformedFrame) ∧
    parse_pkt [0, 2, 123, 125] = .ok { hdr := {}, body := [] } := by
  refine ⟨?_, ?_, rfl⟩
  · intro bs h
    unfold parse_pkt
    rw [if_pos h]
  · intro bs h4 hshort
    unfold parse_pkt
    rw [if_neg (by omega), if_pos hshort]

/-- Witness for c7_malformed_frames: a 3-byte frame and a 4-byte frame
declaring a 9-byte header both fail with the frame error. -/
theorem c7_malformed_frames_witness :
    parse_pkt [0, 0, 0] = .error .malformedFrame ∧
    parse_pkt [0, 9, 123, 125] = .error .malformedFrame :=
  ⟨c7_malformed_frames.1 [0, 0, 0] (by decide),
   c7_malformed_frames.2.1 [0, 9, 123, 125] (by decide) (by decide)⟩

/-- A concrete packet exercising the full codec. -/
def c6pkt : pkt_t :=
  { hdr := { Ty := s2b "seek", Seq := 1, Ack := some 0, Miss := [3],
             Custom := some (.obj (.cons (s2b "k") (.num 5) .nil)) }
    body := [1, 2, 3] }

set_option maxRecDepth 200000 in
/-- Witness for c6_roundtrip at a concrete packet with a custom header,
ack, miss list and body. -/
theorem c6_roundtrip_witness : wfPkt c6pkt ∧ parse_pkt (format_pkt c6pkt) = .ok c6pkt :=
  ⟨by decide, c6_roundtrip c6pkt (by decide)⟩

theorem encStrBody_replicate_97 (n : Nat) :
    encStrBody (List.replicate n 97) = List.replicate n 97 := by
  induction n with
  | zero => rfl
  | succ n ih =>
    rw [List.replicate_succ]
    show escByte 97 ++ encStrBody (List.replicate n 97) = 97 :: List.replicate n 97
    rw [show escByte 97 = [97] from rfl, ih]
    rfl

/-- A header whose JSON encoding overflows the 16-bit length prefix. -/
def hugeHdr : pkt_hdr_t := { Err := List.replicate 65530 97 }

/-- A packet with an oversized header and a one-byte body. -/
def hugePkt : pkt_t := { hdr := hugeHdr, body := [7] }

theorem hdrPairs_hugeHdr :
    hdrPairs hugeHdr = [(s2b "err", Json.str (List.replicate 65530 97))] := rfl

theorem encodeHdr_hugeHdr_eq : encodeHdr hugeHdr =
    [123, 34, 101, 114, 114, 34, 58, 34] ++ (List.replicate 65530 97 ++ [34, 125, 10]) := by
  rw [encodeHdr, hdrPairs_hugeHdr]
  rw [show joinComma (List.map encField [(s2b "err", Json.str (List.replicate 65530 97))]) =
    encField (s2b "err", Json.str (List.replicate 65530 97)) from rfl]
  rw [show encField (s2b "err", Json.str (List.replicate 65530 97)) =
    [34, 101, 114, 114, 34, 58, 34] ++ (encStrBody (List.replicate 65530 97) ++ [34]) from rfl]
  rw [encStrBody_replicate_97]
  rw [List.append_assoc, List.append_assoc]
  rfl

theorem encodeHdr_hugeHdr_len : (encodeHdr hugeHdr).length = 65541 := by
  rw [encodeHdr_hugeHdr_eq, List.length_append, List.length_append, List.length_replicate]
  rfl

theorem format_hugePkt_declared : declaredHdrLen (format_pkt hugePkt) = 5 := by
  have h1 : declaredHdrLen (format_pkt hugePkt) =
      ((encodeHdr hugePkt.hdr).length % 65536) / 256 * 256 +
      ((encodeHdr hugePkt.hdr).length % 65536) % 256 := by
    rw [format_pkt, declaredHdrLen_be16]
  rw [h1, show hugePkt.hdr = hugeHdr from rfl, encodeHdr_hugeHdr_len]

/-- C9 counterexample: for the packet with a 65541-byte encoded header
the two-byte prefix declares 5, not the exact encoding length. -/
theorem c9_prefix_counterexample :
    declaredHdrLen (format_pkt hugePkt) ≠ (encodeHdr hugePkt.hdr).length := by
  rw [format_hugePkt_declared, show hugePkt.hdr = hugeHdr from rfl, encodeHdr_hugeHdr_len]
  omega

/-- C9 (amended): whenever the JSON encoding of the header fits 16 bits,
format_pkt produces exactly the two-byte big-endian encoding length,
followed by the JSON encoding and the body verbatim. -/
theorem c9_encoder_contract (p : pkt_t) (hwf : (encodeHdr p.hdr).length < 65536) :
    format_pkt p = be16 ((encodeHdr p.hdr).length) ++ (encodeHdr p.hdr ++ p.body) ∧
    declaredHdrLen (format_pkt p) = (encodeHdr p.hdr).length := by
  constructor
  · rw [format_pkt, Nat.mod_eq_of_lt hwf]
  · rw [format_pkt, declaredHdrLen_be16, Nat.mod_eq_of_lt hwf]
    omega

/-- Witness for c9_encoder_contract at a small concrete packet. -/
theorem c9_encoder_contract_witness :
    declaredHdrLen (format_pkt { hdr := { C := [97, 98] }, body := [1, 2] }) =
      (encodeHdr ({ C := [97, 98] } : pkt_hdr_t)).length :=
  (c9_encoder_contract { hdr := { C := [97, 98] }, body := [1, 2] } (by decide)).2

/-- C10: when the encoded header exceeds 65535 bytes, format_pkt still
produces a frame, but the prefix holds the length reduced modulo 2^16,
which differs from the true length, and any successful re-parse of the
frame returns a packet whose body length differs from the original's. -/
theorem c10_length_wraparound (p : pkt_t) (hbig : 65535 < (encodeHdr p.hdr).length) :
    format_pkt p = be16 ((encodeHdr p.hdr).length % 65536) ++ (encodeHdr p.hdr ++ p.body) ∧
    declaredHdrLen (format_pkt p) = (encodeHdr p.hdr).length % 65536 ∧
    (encodeHdr p.hdr).length % 65536 ≠ (encodeHdr p.hdr).length ∧
    (∀ q, parse_pkt (format_pkt p) = .ok q → q.body.length ≠ p.body.length) := by
  have hmodlt : (encodeHdr p.hdr).length % 65536 < 65536 :=
    Nat.mod_lt _ (by omega)
  have hdecl : declaredHdrLen (format_pkt p) = (encodeHdr p.hdr).length % 65536 := by
    rw [format_pkt, declaredHdrLen_be16]
    omega
  have hfrlen : (format_pkt p).length = 2 + ((encodeHdr p.hdr).length + p.body.length) := by
    simp [format_pkt, be16, List.length_append]
    omega
  refine ⟨rfl, hdecl, by omega, ?_⟩
  intro q hq
  unfold parse_pkt at hq
  rw [if_neg (by omega), hdecl, if_neg (by omega)] at hq
  cases hdec : decodeHdr (((format_pkt p).drop 2).take ((encodeHdr p.hdr).length % 65536)) with
  | none => rw [hdec] at hq; cases hq
  | some h =>
    rw [hdec] at hq
    have hqeq : q = { hdr := h, body := (format_pkt p).drop ((encodeHdr p.hdr).length % 65536 + 2) } :=
      (Except.ok.inj hq).symm
    rw [hqeq]
    have : ((format_pkt p).drop ((encodeHdr p.hdr).length % 65536 + 2)).length =
        (format_pkt p).length - ((encodeHdr p.hdr).length % 65536 + 2) := by
      simp [List.length_drop]
    simp only [this, hfrlen]
    omega

set_option maxRecDepth 1000000 in
/-- Witness for c10_length_wraparound at the concrete oversized packet:
its encoded header is 65541 bytes and the declared length collapses
to 5. -/
theorem c10_length_wraparound_witness :
    declaredHdrLen (format_pkt hugePkt) = (encodeHdr hugePkt.hdr).length % 65536 ∧
    (encodeHdr hugePkt.hdr).length % 65536 ≠ (encodeHdr hugePkt.hdr).length :=
  ⟨(c10_length_wraparound hugePkt (by rw [show hugePkt.hdr = hugeHdr from rfl, encodeHdr_hugeHdr_len]; omega)).2.1,
   (c10_length_wraparound hugePkt (by rw [show hugePkt.hdr = hugeHdr from rfl, encodeHdr_hugeHdr_len]; omega)).2.2.1⟩

/-- pkt_hdr_t.JustAck from pkt.go: every field except Ack, Miss and C
must hold its zero value, and Ack must be present.  Go's nil checks on
See and Custom are the emptiness checks of the embedding. -/
def hdrJustAck (h : pkt_hdr_t) : Bool :=
  h.Ty == [] && h.Line == [] && h.Iv == [] && h.Open == [] && h.Sig == [] &&
  h.To == [] && h.At == 0 && h.Family == [] && h.Seq == 0 && h.Ack.isSome &&
  h.End == false && h.Err == [] && h.Seek == [] && h.See == [] && h.Peer == [] &&
  h.IP == [] && h.Port == 0 && h.Custom.isNone

/-- pkt_t.JustAck from pkt.go: empty body and a just-ack header. -/
def JustAck (p : pkt_t) : Bool := p.body.isEmpty && hdrJustAck p.hdr

/-! ## Channel controller (controller_channel.go, switch.go)

The per-channel receive buffer, send buffer and ack handler live in
source files absent from src/; the receive buffer is modelled from the
spec (§4.4) and the ack handler is reduced to the lifecycle flag the
controller claims touch.  The controller, channel send/receive/close and
the inbound demux are translated from controller_channel.go and
switch.go. -/

/-- Modelled from the spec (§4.4): the channel receive buffer, a map
from sequence number to packet with a next-in-order counter and a close
flag (the blocking behaviour and deadlines are out of the model's
scope).  The file defining make_channel_rcv_buffer is absent from
src/. -/
structure channel_rcv_buffer_t where
  pkts : List (Int × pkt_t) := []
  nextSeq : Int := 1
  closed : Bool := false
deriving DecidableEq

/-- Modelled from the spec (§4.4): drop when closed, duplicate or below
the window; else store under the packet's seq. -/
def rcv_put (b : channel_rcv_buffer_t) (p : pkt_t) : channel_rcv_buffer_t :=
  if b.closed then b
  else if p.hdr.Seq < b.nextSeq then b
  else if b.pkts.any (fun e => e.1 == p.hdr.Seq) then b
  else { b with pkts := b.pkts ++ [(p.hdr.Seq, p)] }

/-- Outcome of a non-blocking view of the buffer's get. -/
inductive rcvGetResult where
  | delivered (p : pkt_t) (b : channel_rcv_buffer_t)
  | closedErr
  | blocked
deriving DecidableEq

/-- Modelled from the spec (§4.4): deliver the next-in-order packet when
present, fail Closed when the buffer is closed and drained, else
block. -/
def rcv_get (b : channel_rcv_buffer_t) : rcvGetResult :=
  match b.pkts.find? (fun e => e.1 == b.nextSeq) with
  | some e =>
    .delivered e.2
      { b with pkts := b.pkts.filter (fun e2 => e2.1 != b.nextSeq), nextSeq := b.nextSeq + 1 }
  | none => if b.closed then .closedErr else .blocked

/-- Modelled from the spec (§4.4): close wakes all waiters. -/
def rcv_close (b : channel_rcv_buffer_t) : channel_rcv_buffer_t := { b with closed := true }

/-- channel_t from controller_channel.go: identifier, type, receive
buffer, the ack handler reduced to its lifecycle flag, and the
transcript of packets handed to the line layer by send. -/
structure channel_t where
  id : List Nat := []
  channel_type : List Nat := []
  rcv : channel_rcv_buffer_t := {}
  ackClosed : Bool := false
  sent : List pkt_t := []
deriving DecidableEq

/-- channel_t.send from controller_channel.go, reduced to its visible
effect: stamp the packet with the channel id and hand it to the line
layer (the send-buffer and ack annotation are internal to files absent
from src/). -/
def channel_send (c : channel_t) (p : pkt_t) : channel_t :=
  { c with sent := c.sent ++ [{ p with hdr := { p.hdr with C := c.id } }] }

/-- channel_t.close_with_error from controller_channel.go: send a packet
with End true and the error message, close the ack handler, close the
receive buffer.  The channel registry is not touched. -/
def close_with_error (c : channel_t) (msg : List Nat) : channel_t :=
  let c2 := channel_send c { hdr := { End := true, Err := msg } }
  { c2 with ackClosed := true, rcv := rcv_close c2.rcv }

/-- Channel-level errors surfaced by receive (spec §7). -/
inductive chanError where
  | closedChan
  | remoteError (msg : List Nat)
deriving DecidableEq

/-- Result of channel_t.receive: a packet optionally paired with the
remote error it carries, a bare failure, or blocking. -/
inductive receiveResult where
  | got (p : pkt_t) (e : Option chanError)
  | failed (e : chanError)
  | blocked
deriving DecidableEq

/-- channel_t.receive from controller_channel.go: take a packet from the
buffer; when its err header is set, return the packet together with the
error. -/
def channel_receive (c : channel_t) : receiveResult × channel_t :=
  match rcv_get c.rcv with
  | .delivered p b =>
    if p.hdr.Err ≠ [] then (.got p (some (.remoteError p.hdr.Err)), { c with rcv := b })
    else (.got p none, { c with rcv := b })
  | .closedErr => (.failed .closedChan, c)
  | .blocked => (.blocked, c)

/-- Result of the public Channel.Receive. -/
inductive publicReceiveResult where
  | ok (customHdr : Option Json) (body : List Nat)
  | failed (e : chanError)
  | blocked
deriving DecidableEq

/-- Channel.Receive from switch.go: call receive, and when the error is
set return it alone, discarding the packet; otherwise unmarshal the
custom header and return the body. -/
def Channel_Receive (c : channel_t) : publicReceiveResult × channel_t :=
  match channel_receive c with
  | (.got p none, c2) => (.ok p.hdr.Custom p.body, c2)
  | (.got _ (some e), c2) => (.failed e, c2)
  | (.failed e, c2) => (.failed e, c2)
  | (.blocked, c2) => (.blocked, c2)

/-- channel_controller from controller_channel.go: the registry mapping
channel ids to channels, as an association list. -/
structure channel_controller where
  channels : List (List Nat × channel_t) := []
deriving DecidableEq

/-- Go map assignment. -/
def mapInsert (m : List (List Nat × channel_t)) (k : List Nat) (v : channel_t) :
    List (List Nat × channel_t) :=
  (k, v) :: m.filter (fun e => e.1 ≠ k)

/-- Go map lookup. -/
def mapLookup (m : List (List Nat × channel_t)) (k : List Nat) : Option channel_t :=
  (m.find? (fun e => e.1 == k)).map (fun e => e.2)

/-- channel_controller.drop_channel from controller_channel.go.  It is
defined in the source but never called by the close path. -/
def drop_channel (h : channel_controller) (c : channel_t) : channel_controller :=
  { h with channels := h.channels.filter (fun e => e.1 ≠ c.id) }

/-- Closing a registered channel: the channel object is mutated in place
by close_with_error, so the registry entry is replaced by the closed
channel; nothing in the source removes the key. -/
def closeInController (h : channel_controller) (cid msg : List Nat) : channel_controller :=
  match mapLookup h.channels cid with
  | some ch => { h with channels := mapInsert h.channels cid (close_with_error ch msg) }
  | none => h

/-- The path taken by the inbound demux. -/
inductive demuxOutcome where
  | dropNoChannelId
  | dropUnknown
  | openedNew
  | deliveredExisting (justAck : Bool)
deriving DecidableEq

/-- rcv_channel_pkt from controller_channel.go: drop when the c header
is absent; deliver to a known channel (skipping the receive buffer for
pure acks); open a new channel when the type header is set; else drop as
an orphan. -/
def rcv_channel_pkt (h : channel_controller) (p : pkt_t) : channel_controller × demuxOutcome :=
  if p.hdr.C = [] then (h, .dropNoChannelId)
  else
    match mapLookup h.channels p.hdr.C with
    | some ch =>
      let ch2 := if JustAck p then ch else { ch with rcv := rcv_put ch.rcv p }
      ({ h with channels := mapInsert h.channels p.hdr.C ch2 }, .deliveredExisting (JustAck p))
    | none =>
      if p.hdr.Ty ≠ [] then
        let ch : channel_t :=
          { id := p.hdr.C, channel_type := p.hdr.Ty, rcv := rcv_put {} p }
        ({ h with channels := mapInsert h.channels p.hdr.C ch }, .openedNew)
      else (h, .dropUnknown)

theorem mapLookup_insert (m : List (List Nat × channel_t)) (k : List Nat) (v : channel_t) :
    mapLookup (mapInsert m k v) k = some v := by
  simp [mapLookup, mapInsert]

/-- The packet carrying a remote error, buffered at the next sequence. -/
def c4pkt : pkt_t := { hdr := { Seq := 1, Err := s2b "boom" }, body := [1, 2, 3] }

/-- A channel whose receive buffer holds the error-carrying packet. -/
def c4chan : channel_t := { id := s2b "ab", rcv := { pkts := [(1, c4pkt)] } }

/-- C4: the inner channel_t.receive delivers the packet together with
the RemoteError, but the public Channel.Receive discards the packet and
returns the error alone, so the body [1, 2, 3] never reaches the
caller, contradicting the claim that the body is returned together with
the error. -/
theorem c4_receive_discards_packet :
    (channel_receive c4chan).1 = .got c4pkt (some (.remoteError (s2b "boom"))) ∧
    (Channel_Receive c4chan).1 = .failed (.remoteError (s2b "boom")) := by
  constructor <;> rfl

/-- An open registered channel. -/
def c5chan : channel_t := { id := s2b "ab" }

/-- A controller holding that channel. -/
def c5ctrl : channel_controller := { channels := [(s2b "ab", c5chan)] }

/-- The controller after the channel is closed. -/
def c5closed : channel_controller := closeInController c5ctrl (s2b "ab") []

/-- C5: closing emits the End-flagged packet and closes the ack handler
and the receive buffer, but the channel id stays in the registry
(drop_channel is never called), so the inbound demux still matches the
closed channel instead of treating the id as unknown. -/
theorem c5_close_keeps_demux :
    ((mapLookup c5closed.channels (s2b "ab")).map
      (fun ch => (ch.ackClosed, ch.rcv.closed,
        ch.sent.map (fun q => (q.hdr.End, q.hdr.Err, q.hdr.C))))) =
      some (true, true, [(true, [], s2b "ab")]) ∧
    (rcv_channel_pkt c5closed { hdr := { C := s2b "ab" } }).2 = .deliveredExisting false ∧
    demuxOutcome.deliveredExisting false ≠ demuxOutcome.dropUnknown := by
  refine ⟨rfl, rfl, by decide⟩

/-- C8: JustAck holds exactly when the body is empty, ack is present and
every header field other than ack, miss and c is unset; and a packet
satisfying JustAck leaves a known channel untouched (in particular
nothing is enqueued into its receive buffer), being consumed by the ack
engine alone. -/
theorem c8_justAck_spec (p : pkt_t) :
    (JustAck p = true ↔
      (p.body = [] ∧ p.hdr.Ty = [] ∧ p.hdr.Line = [] ∧ p.hdr.Iv = [] ∧
       p.hdr.Open = [] ∧ p.hdr.Sig = [] ∧ p.hdr.To = [] ∧ p.hdr.At = 0 ∧
       p.hdr.Family = [] ∧ p.hdr.Seq = 0 ∧ p.hdr.Ack.isSome = true ∧
       p.hdr.End = false ∧ p.hdr.Err = [] ∧ p.hdr.Seek = [] ∧ p.hdr.See = [] ∧
       p.hdr.Peer = [] ∧ p.hdr.IP = [] ∧ p.hdr.Port = 0 ∧ p.hdr.Custom.isNone = true)) ∧
    (∀ (h : channel_controller) (ch : channel_t), p.hdr.C ≠ [] →
      mapLookup h.channels p.hdr.C = some ch → JustAck p = true →
      mapLookup (rcv_channel_pkt h p).1.channels p.hdr.C = some ch) := by
  constructor
  · simp [JustAck, hdrJustAck, List.isEmpty_iff, and_assoc]
  · intro h ch hC hlook hja
    unfold rcv_channel_pkt
    rw [if_neg hC, hlook]
    simp only [hja, if_pos]
    exact mapLookup_insert _ _ _

/-- A controller with one registered channel for the C8 witness. -/
def c8ctrl : channel_controller := { channels := [(s2b "ab", { id := s2b "ab" })] }

/-- A pure-ack packet (ack and miss set, everything else empty). -/
def c8pkt : pkt_t := { hdr := { C := s2b "ab", Ack := some 3, Miss := [1] } }

/-- Witness for c8_justAck_spec: the concrete pure-ack packet satisfies
JustAck and leaves the registered channel exactly as it was. -/
theorem c8_justAck_spec_witness :
    JustAck c8pkt = true ∧
    mapLookup (rcv_channel_pkt c8ctrl c8pkt).1.channels c8pkt.hdr.C =
      some { id := s2b "ab" } :=
  ⟨by decide,
   (c8_justAck_spec c8pkt).2 c8ctrl { id := s2b "ab" } (by decide) (by decide) (by decide)⟩

end Telehash
